import Mathlib

/-
Verification development for the Sistema-UML backend.

Shallow embedding conventions:
* Python dicts with optional keys become structures with Option-typed scalar
  fields; a use site d.get(key, dflt) becomes field.getD dflt.  Collection
  keys read with .get(key, []) become plain List fields.
* Python floats (classifier confidences) are modelled exactly as rationals.
* Python substring membership (needle in hay) is a list-infix test on the
  character lists.
* sys.exit(1) in the generator is modelled as an Except.error value; the
  normal return path is Except.ok.
* The string-building methods of decoder.py all have the shape
  plantuml_str = current_code; ... plantuml_str += piece; return plantuml_str
  so each is embedded as (cur ++ pieceOf input), with the piece function
  holding the faithful branch structure.
-/

namespace SistemaUML

/-! ### String helpers mirroring the Python primitives used by the repo -/

/-- Python str whitespace class as used by the repo (the re module's \s). -/
def pyIsSpace (c : Char) : Bool :=
  c = ' ' || c = '\t' || c = '\n' || c = '\r' || c = '\x0b' || c = '\x0c'

/-- Python regex word class \w restricted to the character repertoire this
repository uses: ASCII alphanumerics, underscore, and the Latin-1 letters
(U+00C0..U+00FF without the multiplication and division signs). -/
def pyIsWord (c : Char) : Bool :=
  c.isAlphanum || c = '_' ||
    (0xC0 ≤ c.toNat && c.toNat ≤ 0xFF && c.toNat ≠ 0xD7 && c.toNat ≠ 0xF7)

/-- The character class [A-Za-zÀ-ÿ0-9_] written literally in main.py
(the full U+00C0..U+00FF block, signs included). -/
def pyIsWordExt (c : Char) : Bool :=
  pyIsWord c || (0xC0 ≤ c.toNat && c.toNat ≤ 0xFF)

/-- needle occurs as a contiguous sublist of the second argument. -/
def listInfixOf (n : List Char) : List Char → Bool
  | [] => n.isEmpty
  | c :: rest => n.isPrefixOf (c :: rest) || listInfixOf n rest

/-- Python substring membership: needle in hay. -/
def strContainsSub (hay needle : String) : Bool :=
  listInfixOf needle.data hay.data

/-- Python str.lower, adequate for the ASCII capitals in the texts used here. -/
def pyLower (s : String) : String :=
  ⟨s.data.map Char.toLower⟩

/-- Python str.strip. -/
def pyStrip (s : String) : String :=
  ⟨((s.data.dropWhile pyIsSpace).reverse.dropWhile pyIsSpace).reverse⟩

/-- Python list slice l[-n:] (the n most recent entries). -/
def pyTakeLast {α : Type} (n : ℕ) (l : List α) : List α :=
  l.drop (l.length - n)

/-! #### Exact rational arithmetic

Batteries marks the Rat field operations irreducible, which blocks decide
and rfl-style evaluation; the embedding therefore computes on num/den
through mkRat, which normalizes exactly like the library operations. -/

def qNeg (q : ℚ) : ℚ := mkRat (-q.num) q.den

def qAdd (a b : ℚ) : ℚ :=
  mkRat (a.num * (b.den : ℤ) + b.num * (a.den : ℤ)) (a.den * b.den)

def qSub (a b : ℚ) : ℚ := qAdd a (qNeg b)

def qMul (a b : ℚ) : ℚ := mkRat (a.num * b.num) (a.den * b.den)

/-- Division of a rational by a natural number. -/
def qDivNat (a : ℚ) (n : ℕ) : ℚ := mkRat a.num (a.den * n)

def qOfNat (n : ℕ) : ℚ := mkRat (n : ℤ) 1

/-- The exact rational a / b of two naturals. -/
def natDivQ (a b : ℕ) : ℚ := mkRat (a : ℤ) b

def qMin (a b : ℚ) : ℚ := if a ≤ b then a else b

def qAbs (q : ℚ) : ℚ := if q < 0 then qNeg q else q

def qFloor (q : ℚ) : ℤ := Int.fdiv q.num (q.den : ℤ)

/-- Rounding half upward, the convention of Mathlib's round. -/
def qRound (q : ℚ) : ℤ := qFloor (qAdd q (mkRat 1 2))

/-- Concatenation of a list of strings (used to state generator shapes). -/
def strJoin : List String → String
  | [] => ""
  | s :: r => s ++ strJoin r

/-! ### decoder.py : data model of the diagram JSON -/

structure ClassAttr where
  name : Option String
  type : Option String
  visibility : Option String
  isStatic : Option Bool
  isFinal : Option Bool
deriving DecidableEq

structure ClassParam where
  type : Option String
  name : Option String
deriving DecidableEq

structure ClassMethod where
  name : Option String
  returnType : Option String
  visibility : Option String
  isAbstract : Option Bool
  params : List ClassParam
deriving DecidableEq

structure ClassElement where
  type : Option String
  name : Option String
  attributes : List ClassAttr
  methods : List ClassMethod
deriving DecidableEq

structure ClassRel where
  type : Option String
  source : Option String
  target : Option String
  multiplicity : Option (List (Option String))
deriving DecidableEq

structure UCActor where
  name : Option String
  aliasName : Option String
  stereotype : Option String
  business : Option Bool
deriving DecidableEq

structure UCCase where
  name : Option String
  aliasName : Option String
  stereotype : Option String
  business : Option Bool
deriving DecidableEq

structure UCRel where
  type : Option String
  principal : Option String
  secondary : Option String
  direction : Option String
  label : Option String
  extend : Option String
  stereotype : Option String
deriving DecidableEq

inductive UCPackage where
  | mk (name aliasName : String) (useCases : List UCCase) (actors : List UCActor)
       (packages : List UCPackage)

/-- The one JSON dict handed to JsonPuml; every reader uses .get with a
default, except diagramType and the package name/alias which are indexed
directly (hence diagramType is Option while package fields are plain). -/
structure JsonData where
  diagramType : Option String
  declaringElements : List ClassElement
  relationShips : List ClassRel
  actors : List UCActor
  useCases : List UCCase
  packages : List UCPackage
  relationships : List UCRel

/-! ### decoder.py : DecodeClass -/

/-- Python dict.get on the small literal string tables. -/
def pyDictGet (m : List (String × String)) (k dflt : String) : String :=
  match m.find? (fun p => p.1 == k) with
  | some p => p.2
  | none => dflt

def pyDictHasKey (m : List (String × String)) (k : String) : Bool :=
  (m.find? (fun p => p.1 == k)).isSome

/-- DecodeClass._visibilities. -/
def visibilities : List (String × String) :=
  [("private", "-"), ("protected", "#"), ("package private", "~"), ("public", "+")]

/-- DecodeClass._relations_type. -/
def relationsType : List (String × String) :=
  [("inheritance", "<|--"), ("composition", "*--"), ("aggregation", "o--"),
   ("association", "--"), ("instantiation", "..|>"), ("realization", "<|..")]

/-- Visibility symbol on an attribute line: _visibilities.get(key, '') of
attribute.get('visibility', ''). -/
def attrVisSymbol (v : Option String) : String :=
  pyDictGet visibilities (v.getD "") ""

/-- Visibility symbol on a method line: _visibilities.get(key, '+') of
method.get('visibility', 'public'). -/
def methodVisSymbol (v : Option String) : String :=
  pyDictGet visibilities (v.getD "public") "+"

/-- One attribute line of the class generator. -/
def attrLine (elementName : String) (a : ClassAttr) : String :=
  let attributeName := a.name.getD ""
  let attributeType := a.type.getD ""
  let visibility := attrVisSymbol a.visibility
  let staticTag := if a.isStatic.getD false then "{isStatic}" else ""
  let finalTag := if a.isFinal.getD false then "{final}" else ""
  elementName ++ " : " ++ visibility ++ " " ++ staticTag ++ " " ++ finalTag ++ " "
    ++ attributeType ++ " " ++ attributeName ++ "\n"

/-- The parameter string built by the inner loop, one trailing space per
parameter (the generator later strips the final character). -/
def methodParamsStr (ps : List ClassParam) : String :=
  ps.foldl (fun acc p => acc ++ (p.type.getD "") ++ " " ++ (p.name.getD "") ++ " ") ""

/-- One method line of the class generator. -/
def methodLine (elementName : String) (m : ClassMethod) : String :=
  let methodName := m.name.getD ""
  let abstractTag := if m.isAbstract.getD false then "{abstract}" else ""
  let visibility := methodVisSymbol m.visibility
  let returnType := m.returnType.getD "void"
  let params := methodParamsStr m.params
  elementName ++ " : " ++ visibility ++ " " ++ abstractTag ++ " " ++ returnType ++ " "
    ++ methodName ++ "(" ++ params.dropRight 1 ++ ")\n"

/-- One relationship line of the class generator, exactly as in the source:
endpoint labels only from positions 0 and 3 of the multiplicity array, and
only when the array is long enough and the entry is not None. -/
def relLine (r : ClassRel) : String :=
  let relationType := pyDictGet relationsType (r.type.getD "") "--"
  let source := r.source.getD ""
  let target := r.target.getD ""
  let multiplicityEnd1 :=
    match r.multiplicity with
    | some mult =>
      match mult[0]? with
      | some (some v) => "\"" ++ v ++ "\""
      | _ => ""
    | none => ""
  let multiplicityEnd2 :=
    match r.multiplicity with
    | some mult =>
      match mult[3]? with
      | some (some v) => "\"" ++ v ++ "\""
      | _ => ""
    | none => ""
  source ++ " " ++ multiplicityEnd1 ++ " " ++ relationType ++ " " ++ multiplicityEnd2
    ++ " " ++ target ++ "\n"

/-- The body of the element loop of DecodeClass._generate_code: emit the
declaration line, the attribute lines, the method lines, and then one line
per entry of the diagram-level relationShips list. -/
def classElementStep (rels : List ClassRel) (acc : String) (element : ClassElement) : String :=
  let elementName := element.name.getD ""
  let acc1 := acc ++ (element.type.getD "") ++ " " ++ elementName ++ "\n"
  let acc2 := element.attributes.foldl (fun a attr => a ++ attrLine elementName attr) acc1
  let acc3 := element.methods.foldl (fun a m => a ++ methodLine elementName m) acc2
  rels.foldl (fun a r => a ++ relLine r) acc3

/-- DecodeClass._generate_code: per declared element emit the declaration,
its attributes, its methods, and then the whole diagram-level relationShips
list again. -/
def decodeClassCode (d : JsonData) : String :=
  d.declaringElements.foldl (classElementStep d.relationShips) ""

/-- The contribution of a single declared element without the relationship
block (declaration line, attribute lines, method lines). -/
def elementCode (element : ClassElement) : String :=
  let elementName := element.name.getD ""
  (element.type.getD "") ++ " " ++ elementName ++ "\n"
    ++ strJoin (element.attributes.map (attrLine elementName))
    ++ strJoin (element.methods.map (methodLine elementName))

/-- First ("source" side) and second ("target" side) endpoint data read by
the relationship loop: Some v iff the multiplicity value is a list, is long
enough, and holds a non-None entry at that index. -/
def multEntry (m : Option (List (Option String))) (i : ℕ) : Option String :=
  match m with
  | some l =>
    match l[i]? with
    | some (some v) => some v
    | _ => none
  | none => none

/-- The rendered endpoint label: quoted entry, or empty when degraded. -/
def multEndLabel (m : Option (List (Option String))) (i : ℕ) : String :=
  match multEntry m i with
  | some v => "\"" ++ v ++ "\""
  | none => ""

/-! ### decoder.py : DecodeUseCase -/

def UCPackage.pkgName : UCPackage → String
  | .mk n _ _ _ _ => n

def UCPackage.pkgAlias : UCPackage → String
  | .mk _ a _ _ _ => a

def UCPackage.pkgUseCases : UCPackage → List UCCase
  | .mk _ _ u _ _ => u

def UCPackage.pkgActors : UCPackage → List UCActor
  | .mk _ _ _ a _ => a

def UCPackage.pkgPackages : UCPackage → List UCPackage
  | .mk _ _ _ _ p => p

/-- Text appended for one actor by _decodeUseCaseActor. -/
def ucActorCode (a : UCActor) : String :=
  let actorName := a.name.getD ""
  let actorAlias := a.aliasName.getD ""
  let actorStereotype := match a.stereotype with
    | some s => " <<" ++ s ++ ">>"
    | none => ""
  let actorBusiness := if a.business.getD false then "/" else ""
  if actorName ≠ "" then
    "actor" ++ actorBusiness ++ " \"" ++ actorName ++ "\""
      ++ (if actorAlias ≠ "" then " as " ++ actorAlias else "")
      ++ actorStereotype ++ "\n"
  else ""

/-- DecodeUseCase._decodeUseCaseActor. -/
def decodeUseCaseActor (cur : String) (a : UCActor) : String :=
  cur ++ ucActorCode a

/-- Text appended for one use case by _decodeUseCase: emits only when both
name and alias are non-empty. -/
def ucItemCode (u : UCCase) : String :=
  let usecaseName := u.name.getD ""
  if usecaseName ≠ "" then
    let usecaseBusiness := if u.business.getD false then "/" else ""
    let usecaseAlias := u.aliasName.getD ""
    let usecaseStereotype := match u.stereotype with
      | some s => " <<" ++ s ++ ">>"
      | none => ""
    if usecaseAlias ≠ "" then
      "usecase" ++ usecaseBusiness ++ " (\"" ++ usecaseName ++ "\") as "
        ++ usecaseAlias ++ " " ++ usecaseStereotype ++ "\n"
    else ""
  else ""

/-- DecodeUseCase._decodeUseCase. -/
def decodeUseCaseItem (cur : String) (u : UCCase) : String :=
  cur ++ ucItemCode u

/-- Text appended for one relationship by _decodeRelationships. -/
def relItemCode (r : UCRel) : String :=
  let relationType := r.type.getD ""
  let principal := r.principal.getD ""
  let secondary := r.secondary.getD ""
  let direction := r.direction.getD ""
  let label := match r.label with
    | some s => if s ≠ "" then ":\"" ++ s ++ "\"" else ""
    | none => ""
  let extendMark := r.extend.getD ""
  let stereo := r.stereotype.getD ""
  if principal ≠ "" ∧ secondary ≠ "" then
    if relationType = "actor_actor" then
      (if extendMark = ">" then secondary ++ " <|-- " ++ principal
       else if extendMark = "<" then principal ++ " <|-- " ++ secondary
       else principal ++ " -" ++ direction ++ "-> " ++ secondary)
        ++ label ++ "\n"
    else if relationType = "actor_usecase" then
      principal ++ " -" ++ direction ++ "-> " ++ secondary ++ label ++ "\n"
    else if relationType = "useCase_usecase" then
      if stereo = "include" then principal ++ " .> " ++ secondary ++ ": include\n"
      else if stereo = "extends" then principal ++ " .> " ++ secondary ++ ": extends\n"
      else ""
    else if relationType = "package_package" then
      principal ++ " -" ++ direction ++ "-> " ++ secondary ++ label ++ "\n"
    else ""
  else ""

/-- DecodeUseCase._decodeRelationships. -/
def decodeRelationship (cur : String) (r : UCRel) : String :=
  cur ++ relItemCode r

mutual

/-- One package of DecodeUseCase._decodeUseCasePackage: open the named block,
emit its use cases, its actors, recurse into its sub-packages, close. -/
def decodePackageItem (cur : String) (p : UCPackage) : String :=
  match p with
  | .mk nm al ucs acts subs =>
    let s1 := cur ++ "package \"" ++ nm ++ "\" as " ++ al ++ " \x7b\n"
    let s2 := ucs.foldl decodeUseCaseItem s1
    let s3 := acts.foldl decodeUseCaseActor s2
    let s4 := decodePackageList s3 subs
    s4 ++ "\x7d\n"

/-- The loop over data.get("packages", []) of _decodeUseCasePackage. -/
def decodePackageList (cur : String) : List UCPackage → String
  | [] => cur
  | p :: rest => decodePackageList (decodePackageItem cur p) rest

end

/-- The detached text of one package block. -/
def pkgItemCode (p : UCPackage) : String :=
  decodePackageItem "" p

/-- The detached text of a list of package blocks. -/
def pkgListCode (ps : List UCPackage) : String :=
  decodePackageList "" ps

/-- DecodeUseCase._generate_code: actors, then global use cases, then the
package blocks, then the relationships. -/
def decodeUseCaseCode (d : JsonData) : String :=
  let s1 := d.actors.foldl decodeUseCaseActor ""
  let s2 := d.useCases.foldl decodeUseCaseItem s1
  let s3 := decodePackageList s2 d.packages
  d.relationships.foldl decodeRelationship s3

/-- Modelled from the spec's words, for comparison only (claim C3): "emits
actors then top-level use cases then relationships, then recursively emits
packages".  The actual generator is decodeUseCaseCode. -/
def useCaseCodeSpecOrder (d : JsonData) : String :=
  strJoin (d.actors.map ucActorCode) ++ strJoin (d.useCases.map ucItemCode)
    ++ strJoin (d.relationships.map relItemCode) ++ pkgListCode d.packages

/-- JsonPuml._json_to_plantuml.  A missing diagramType key raises KeyError in
the source, caught by a handler that prints and calls sys.exit(1); that
process exit is modelled as Except.error.  Any present diagramType that is
neither classDiagram nor useCaseDiagram falls through both branches and the
bare marker pair is returned. -/
def jsonToPlantuml (d : JsonData) : Except String String :=
  match d.diagramType with
  | none => Except.error "Error, falta la clave diagramType en los datos JSON"
  | some t =>
    let body := if t = "classDiagram" then decodeClassCode d
                else if t = "useCaseDiagram" then decodeUseCaseCode d
                else ""
    Except.ok ("@startuml Diagram\n" ++ body ++ "@enduml")

/-! ### Concrete instances used by counterexamples and witnesses -/

/-- A use-case model with one (empty) package and one relationship: enough to
observe the order in which the generator emits segments. -/
def ucOrderData : JsonData :=
  { diagramType := some "useCaseDiagram"
    declaringElements := []
    relationShips := []
    actors := []
    useCases := []
    packages := [UCPackage.mk "P" "p" [] [] []]
    relationships := [{ type := some "actor_usecase", principal := some "a",
                        secondary := some "b", direction := some "", label := none,
                        extend := none, stereotype := none }] }

/-- A class-diagram model whose only attribute carries an unmapped
visibility token. -/
def unmappedVisData : JsonData :=
  { diagramType := some "classDiagram"
    declaringElements :=
      [{ type := some "class", name := some "A",
         attributes := [{ name := some "x", type := some "Int",
                          visibility := some "foo", isStatic := none, isFinal := none }],
         methods := [] }]
    relationShips := []
    actors := []
    useCases := []
    packages := []
    relationships := [] }

/-- A JSON whose diagramType is present but recognized by neither branch. -/
def unknownTypeData : JsonData :=
  { diagramType := some "sequenceDiagram"
    declaringElements := []
    relationShips := []
    actors := []
    useCases := []
    packages := []
    relationships := [] }

/-- Second unknown-diagramType JSON, used by the witness. -/
def unknownTypeData2 : JsonData :=
  { diagramType := some "otherDiagram"
    declaringElements := []
    relationShips := []
    actors := []
    useCases := []
    packages := []
    relationships := [] }

/-- A concrete relationship used by the multiplicity-endpoint witness. -/
def relW : ClassRel :=
  { type := some "association", source := some "A", target := some "B",
    multiplicity := some [some "1", some "x", some "y", some "n"] }

/-! ### Hand-compiled matchers for the regexes of the repo

Every regex used by the classifier and the extractor is compiled by hand to
a scanner over the character list.  The regexes involved only use literal
alternations, the classes \w and \s, word boundaries, optional single
letters and greedy repetition between disjoint character classes, so
maximal-munch scanning reproduces the re module's leftmost, earliest-
alternative semantics.  Scanners that can jump over a match carry a fuel
argument; fuel = length of the text + 1 always suffices because every step
consumes at least one character. -/

/-- Case-sensitive literal prefix match, returning the remaining input. -/
def matchLit : List Char → List Char → Option (List Char)
  | [], l => some l
  | _ :: _, [] => none
  | p :: ps, c :: cs => if c = p then matchLit ps cs else none

/-- Case-insensitive literal prefix match (for patterns under re.IGNORECASE;
the pattern is written in lower case). -/
def matchLitCI : List Char → List Char → Option (List Char)
  | [], l => some l
  | _ :: _, [] => none
  | p :: ps, c :: cs => if c.toLower = p.toLower then matchLitCI ps cs else none

/-- \s+ : one or more whitespace characters, greedily. -/
def dropWs1 : List Char → Option (List Char)
  | c :: cs => if pyIsSpace c then some (cs.dropWhile pyIsSpace) else none
  | [] => none

/-- \w+ : one or more word characters, greedily. -/
def dropWord1 : List Char → Option (List Char)
  | c :: cs => if pyIsWord c then some (cs.dropWhile pyIsWord) else none
  | [] => none

/-- A word boundary \b holds before the current position. -/
def boundaryBefore (prev : Option Char) : Bool :=
  match prev with
  | some c => !pyIsWord c
  | none => true

/-- A word boundary \b holds after a match ending here. -/
def tailBoundary (l : List Char) : Bool :=
  match l with
  | c :: _ => !pyIsWord c
  | [] => true

/-- Try the alternatives in pattern order; on a literal match run the tail
matcher, falling through to later alternatives on failure (the re module's
backtracking over an alternation). -/
def tryAlts (alts : List (List Char)) (tail : List Char → Bool) (l : List Char) : Bool :=
  alts.any (fun a =>
    match matchLit a l with
    | some rest => tail rest
    | none => false)

/-- re.search of a position matcher: try every start position. -/
def searchFrom (f : Option Char → List Char → Bool) : Option Char → List Char → Bool
  | prev, [] => f prev []
  | prev, c :: cs => f prev (c :: cs) || searchFrom f (some c) cs

def reSearch (f : Option Char → List Char → Bool) (s : String) : Bool :=
  searchFrom f none s.data

/-- Tail \s+\w+ . -/
def tailWsWord (l : List Char) : Bool :=
  match dropWs1 l with
  | some r =>
    match r with
    | c :: _ => pyIsWord c
    | [] => false
  | none => false

/-- Tail \s+\w+\s*\x7b (pattern 1 of the class patterns). -/
def tailWsWordBrace (l : List Char) : Bool :=
  match dropWs1 l with
  | some r =>
    match dropWord1 r with
    | some r2 =>
      match r2.dropWhile pyIsSpace with
      | c :: _ => c = '\x7b'
      | [] => false
    | none => false
  | none => false

/-- Position matcher of r'\w+\s+\w+\s*\([^)]*\)' (method-like syntax). -/
def atMethodCall (_prev : Option Char) (l : List Char) : Bool :=
  match dropWord1 l with
  | some r1 =>
    match dropWs1 r1 with
    | some r2 =>
      match dropWord1 r2 with
      | some r3 =>
        match r3.dropWhile pyIsSpace with
        | '(' :: r4 =>
          match r4.dropWhile (fun ch => ch ≠ ')') with
          | ')' :: _ => true
          | _ => false
        | _ => false
      | none => false
    | none => false
  | none => false

/-- Position matcher for \b(alt|...)  followed by a tail matcher. -/
def atAlts (alts : List String) (tail : List Char → Bool)
    (prev : Option Char) (l : List Char) : Bool :=
  boundaryBefore prev && tryAlts (alts.map String.data) tail l

/-- A whole word-bounded literal phrase occurs somewhere (case-sensitive;
used on already-lowercased text). -/
def wordBoundedPhrase (t : List Char) (phrase : String) : Bool :=
  searchFrom (fun prev l =>
    boundaryBefore prev &&
      (match matchLit phrase.data l with
       | some rest => tailBoundary rest
       | none => false)) none t

/-! ### Clasificador_diagrama.py : AdvancedDiagramClassifier -/

/-- domain_keywords['class_domain']. -/
def classDomainKeywords : List String :=
  ["clase", "atributo", "método", "herencia", "implementación",
   "interface", "enum", "propiedad", "encapsulamiento", "polimorfismo",
   "entidad", "objeto", "instancia", "constructor", "getter", "setter",
   "abstracto", "static", "final", "paquete", "importar", "miembro",
   "variable", "función", "operación", "signatura", "parámetro",
   "visibilidad", "modificador", "sobrescritura", "sobrecarga"]

/-- domain_keywords['usecase_domain']. -/
def usecaseDomainKeywords : List String :=
  ["actor", "usuario", "sistema", "funcionalidad", "interactúa",
   "realiza", "ejecuta", "escenario", "caso de uso", "requisito",
   "objetivo", "proceso", "flujo", "paso", "acción", "tarea",
   "rol", "responsabilidad", "permiso", "acceso", "operación",
   "actividad", "workflow", "procedimiento", "secuencia", "interacción"]

/-- decisive_terms['diagrama_clases']. -/
def classDecisiveTerms : List String :=
  ["clase", "atributo", "método", "herencia", "polimorfismo",
   "encapsulamiento", "interface", "implementación"]

/-- decisive_terms['diagrama_casos_uso']. -/
def usecaseDecisiveTerms : List String :=
  ["actor", "caso de uso", "interactúa", "funcionalidad", "escenario",
   "requisito funcional"]

/-- industry_context, in insertion order. -/
def industryContext : List (String × List String) :=
  [("software",
    ["código", "programa", "aplicación", "software", "desarrollo",
     "debug", "compilar", "ejecutar", "framework", "librería",
     "api", "sdk", "ide", "repositorio", "commit", "branch"]),
   ("business",
    ["negocio", "cliente", "venta", "marketing", "estrategia",
     "mercado", "producto", "servicio", "empresa", "organización",
     "departamento", "equipo", "proyecto", "recurso", "presupuesto"]),
   ("education",
    ["curso", "estudiante", "profesor", "lección", "examen",
     "calificación", "universidad", "colegio", "clase", "tema",
     "asignatura", "materia", "plan de estudios", "currículo"]),
   ("database",
    ["tabla", "registro", "campo", "consulta", "sql", "entidad",
     "relación", "clave", "índice", "transacción", "esquema"])]

/-- industry_preference. -/
def industryPreference : List (String × String) :=
  [("software", "diagrama_clases"), ("business", "diagrama_casos_uso"),
   ("education", "diagrama_clases"), ("database", "diagrama_clases")]

/-- strong_industry_terms. -/
def strongIndustryTerms : List (String × List String) :=
  [("software", ["código", "programa", "desarrollo"]),
   ("business", ["negocio", "cliente", "venta"]),
   ("education", ["curso", "estudiante", "profesor"]),
   ("database", ["tabla", "registro", "consulta"])]

def strongTermsFor (industry : String) : List String :=
  match strongIndustryTerms.find? (fun p => p.1 == industry) with
  | some p => p.2
  | none => []

/-- sum(1 for w in words if w in text). -/
def countContains (text : String) (words : List String) : ℕ :=
  (words.filter (fun w => strContainsSub text w)).length

/-- any(term in text for term in words). -/
def anyContains (text : String) (words : List String) : Bool :=
  words.any (fun w => strContainsSub text w)

/-- One signal result: dict with intent, confidence, method. -/
structure Analysis where
  intent : String
  confidence : ℚ
  method : String
deriving DecidableEq

/-- Per-user conversation context dict.  industry_hints is a Python set;
it is modelled as a deduplicated list in insertion order (membership is the
observable content). -/
structure ConvContext where
  messages : List String
  detectedDomain : Option String
  confidenceHistory : List ℚ
  lastIntent : Option String
  industryHints : List String
  interactionCount : ℕ
deriving DecidableEq

/-- The context created for a new user. -/
def freshContext : ConvContext :=
  { messages := [], detectedDomain := none, confidenceHistory := [],
    lastIntent := none, industryHints := [], interactionCount := 0 }

def qListSum (l : List ℚ) : ℚ := l.foldl qAdd 0

/-- _basic_intent_detection. -/
def basicIntentDetection (text : String) : Analysis :=
  let textLower := pyLower text
  let classScore := countContains textLower classDomainKeywords
  let usecaseScore := countContains textLower usecaseDomainKeywords
  let decisiveClass := anyContains textLower classDecisiveTerms
  let decisiveUsecase := anyContains textLower usecaseDecisiveTerms
  if decisiveClass && !decisiveUsecase then
    ⟨"diagrama_clases", mkRat 92 100, "decisive_terms"⟩
  else if decisiveUsecase && !decisiveClass then
    ⟨"diagrama_casos_uso", mkRat 92 100, "decisive_terms"⟩
  else
    let totalKeywords := classScore + usecaseScore
    if totalKeywords > 0 then
      let classShare : ℚ := natDivQ classScore totalKeywords
      let usecaseShare : ℚ := natDivQ usecaseScore totalKeywords
      let difference := qAbs (qSub classShare usecaseShare)
      if difference > mkRat 3 10 then
        let intent := if classShare > usecaseShare then "diagrama_clases"
                      else "diagrama_casos_uso"
        ⟨intent, qMin (qAdd (mkRat 7 10) (qMul difference (mkRat 3 10))) (mkRat 9 10),
          "keyword_density"⟩
      else if difference > mkRat 15 100 then
        let intent := if classShare > usecaseShare then "diagrama_clases"
                      else "diagrama_casos_uso"
        ⟨intent, qAdd (mkRat 3 5) (qMul difference (mkRat 1 5)), "keyword_density"⟩
      else ⟨"unknown", mkRat 2 5, "basic_analysis"⟩
    else ⟨"unknown", mkRat 2 5, "basic_analysis"⟩

/-- _contextual_analysis.  detected_domain, when set, is always a non-empty
intent string, so Python truthiness coincides with Option.isSome. -/
def contextualAnalysis (text : String) (context : ConvContext) : Analysis :=
  if context.detectedDomain = none ∧ context.interactionCount ≤ 1 then
    ⟨"unknown", 0, "no_context"⟩
  else
    match context.lastIntent with
    | some previousIntent =>
      if previousIntent ≠ "unknown" then
        let textLower := pyLower text
        let relevantTerms := if previousIntent = "diagrama_clases"
                             then classDomainKeywords else usecaseDomainKeywords
        let termMatches := countContains textLower relevantTerms
        if termMatches > 0 then
          let baseBoost : ℚ := qMin (mkRat 2 5) (qMul (qOfNat termMatches) (mkRat 1 10))
          let confidenceBoost :=
            if context.confidenceHistory.length > 1 then
              let recentConfidences := pyTakeLast 3 context.confidenceHistory
              if qDivNat (qListSum recentConfidences) recentConfidences.length > mkRat 7 10
              then qAdd baseBoost (mkRat 1 10) else baseBoost
            else baseBoost
          let baseConfidence : ℚ := if context.detectedDomain.isSome then mkRat 7 10
                                    else mkRat 3 5
          ⟨previousIntent, qMin (qAdd baseConfidence confidenceBoost) (mkRat 95 100),
            "context_reinforcement"⟩
        else ⟨"unknown", 0, "context_analysis"⟩
      else ⟨"unknown", 0, "context_analysis"⟩
    | none => ⟨"unknown", 0, "context_analysis"⟩

/-- _industry_analysis.  Python's max over the dict keys keeps the first key
with the maximal score (replacement only on strictly greater). -/
def industryAnalysis (text : String) : Analysis :=
  let textLower := pyLower text
  let industryScores := industryContext.map (fun p => (p.1, countContains textLower p.2))
  match industryScores with
  | [] => ⟨"unknown", 0, "industry_analysis"⟩
  | h :: t =>
    let primary := t.foldl (fun best p => if p.2 > best.2 then p else best) h
    if primary.2 > 0 then
      let preferredIntent := pyDictGet industryPreference primary.1 "unknown"
      let baseConfidence : ℚ := qMin (mkRat 7 10) (qMul (qOfNat primary.2) (mkRat 15 100))
      let strongCount := countContains textLower (strongTermsFor primary.1)
      ⟨preferredIntent,
        (if strongCount > 0 then qAdd baseConfidence (mkRat 1 10) else baseConfidence),
        "industry_" ++ primary.1⟩
    else ⟨"unknown", 0, "industry_analysis"⟩

/-- The four class_patterns of _semantic_analysis as position matchers. -/
def classPatternCount (t : List Char) : ℕ :=
  (if searchFrom (atAlts ["clase", "class"] tailWsWordBrace) none t then 1 else 0)
  + (if searchFrom (atAlts ["public", "private", "protected"] tailWsWord) none t
     then 1 else 0)
  + (if searchFrom atMethodCall none t then 1 else 0)
  + (if searchFrom (atAlts ["extends", "implements"] tailBoundary) none t
     then 1 else 0)

/-- The four usecase_patterns of _semantic_analysis. -/
def usecasePatternCount (t : List Char) : ℕ :=
  (if searchFrom (atAlts ["actor", "usuario"] tailWsWord) none t then 1 else 0)
  + (if searchFrom (atAlts ["caso de uso", "use case"] tailWsWord) none t
     then 1 else 0)
  + (if searchFrom (atAlts ["puede", "pueden"] tailWsWord) none t then 1 else 0)
  + (if searchFrom (atAlts ["sistema", "sistem"] tailWsWord) none t then 1 else 0)

/-- _semantic_analysis. -/
def semanticAnalysis (text : String) : Analysis :=
  let t := (pyLower text).data
  let classPatternMatches := classPatternCount t
  let usecasePatternMatches := usecasePatternCount t
  if classPatternMatches > usecasePatternMatches ∧ classPatternMatches > 0 then
    ⟨"diagrama_clases",
      qMin (mkRat 8 10) (qAdd (mkRat 1 2) (qMul (qOfNat classPatternMatches) (mkRat 1 10))),
      "semantic_patterns"⟩
  else if usecasePatternMatches > classPatternMatches ∧ usecasePatternMatches > 0 then
    ⟨"diagrama_casos_uso",
      qMin (mkRat 8 10) (qAdd (mkRat 1 2) (qMul (qOfNat usecasePatternMatches) (mkRat 1 10))),
      "semantic_patterns"⟩
  else ⟨"unknown", 0, "semantic_analysis"⟩

/-! ### Clasificador_diagrama.py : _combine_analyses -/

/-- The final classification result.  The analysis_breakdown key of the
source dict is pure observability payload (it repeats the four inputs) and
is not modelled. -/
structure CombineResult where
  intent : String
  confidence : ℚ
  method : String
  supportingAnalyses : ℕ
  ambiguityReason : Option String
deriving DecidableEq

/-- Signals surviving the confidence > 0.3 filter. -/
def validAnalyses (l : List Analysis) : List Analysis :=
  l.filter (fun a => decide (mkRat 3 10 < a.confidence))

/-- Grouping by intent in first-appearance order, appending confidences. -/
def addToGroups (gs : List (String × List ℚ)) (a : Analysis) : List (String × List ℚ) :=
  if gs.any (fun g => g.1 == a.intent) then
    gs.map (fun g => if g.1 == a.intent then (g.1, g.2 ++ [a.confidence]) else g)
  else gs ++ [(a.intent, [a.confidence])]

def intentGroups (l : List Analysis) : List (String × List ℚ) :=
  l.foldl addToGroups []

def groupCount (gs : List (String × List ℚ)) (intent : String) : ℕ :=
  match gs.find? (fun g => g.1 == intent) with
  | some g => g.2.length
  | none => 0

def groupsTotal (gs : List (String × List ℚ)) : ℕ :=
  (gs.map (fun g => g.2.length)).sum

/-- Average confidence per intent group. -/
def avgScores (gs : List (String × List ℚ)) : List (String × ℚ) :=
  gs.map (fun g => (g.1, qDivNat (qListSum g.2) g.2.length))

/-- +0.15 on the previous turn's intent when is_follow_up. -/
def applyFollowUpBoost (scores : List (String × ℚ)) (lastIntent : Option String)
    (isFollowUp : Bool) : List (String × ℚ) :=
  if isFollowUp then
    match lastIntent with
    | some li =>
      if scores.any (fun p => p.1 == li) then
        scores.map (fun p => if p.1 == li then (p.1, qAdd p.2 (mkRat 15 100)) else p)
      else scores
    | none => scores
  else scores

/-- +0.10 for two supporting signals, +0.05 more for three. -/
def applyCountBoost (scores : List (String × ℚ)) (gs : List (String × List ℚ)) :
    List (String × ℚ) :=
  scores.map (fun p =>
    (p.1, qAdd (qAdd p.2 (if 2 ≤ groupCount gs p.1 then mkRat 1 10 else 0))
        (if 3 ≤ groupCount gs p.1 then mkRat 1 20 else 0)))

/-- Stable insertion keeping earlier entries first among equal scores
(Python's stable sorted with reverse=True). -/
def insertDesc (x : String × ℚ) : List (String × ℚ) → List (String × ℚ)
  | [] => [x]
  | y :: rest => if y.2 ≥ x.2 then y :: insertDesc x rest else x :: y :: rest

def sortDescByScore (l : List (String × ℚ)) : List (String × ℚ) :=
  l.foldl (fun acc x => insertDesc x acc) []

/-- The adjusted, descending-sorted per-intent scores the combiner ranks. -/
def adjustedScores (analyses : List Analysis) (lastIntent : Option String)
    (isFollowUp : Bool) : List (String × ℚ) :=
  let gs := intentGroups (validAnalyses analyses)
  sortDescByScore (applyCountBoost (applyFollowUpBoost (avgScores gs) lastIntent isFollowUp) gs)

def firstIntentOf (scores : List (String × ℚ)) : String :=
  match scores with
  | [] => ""
  | p :: _ => p.1

def bestOf (scores : List (String × ℚ)) : ℚ :=
  match scores with
  | [] => 0
  | p :: _ => p.2

def secondOf (scores : List (String × ℚ)) : ℚ :=
  match scores with
  | _ :: q :: _ => q.2
  | _ => 0

/-- round(x, 2), modelled on exact rationals with half-up rounding (the
float round can differ only on exact half-cent values, which the
classifier's score arithmetic does not hit in the claims below). -/
def round2 (q : ℚ) : ℚ :=
  mkRat (qRound (qMul q (qOfNat 100))) 100

/-- The %.2f formatting of a non-negative score used in ambiguity reasons. -/
def fmt2 (q : ℚ) : String :=
  let n := qRound (qMul q (qOfNat 100))
  let whole := n / 100
  let frac := (n % 100).toNat
  toString whole ++ "." ++ (if frac < 10 then "0" ++ toString frac else toString frac)

/-- The reason string enumerating the triggered ambiguity conditions. -/
def ambiguityReasonStr (scoreDiff best : ℚ) : String :=
  let parts := (if scoreDiff < mkRat 8 100 then ["small_score_diff=" ++ fmt2 scoreDiff]
                else [])
    ++ (if best < mkRat 55 100 then ["low_best_score=" ++ fmt2 best] else [])
  if parts.isEmpty then "undetermined" else String.intercalate "," parts

/-- _combine_analyses. -/
def combineAnalyses (basic contextual industry semantic : Analysis)
    (context : ConvContext) (isFollowUp : Bool) : CombineResult :=
  let analyses := [basic, contextual, industry, semantic]
  let valid := validAnalyses analyses
  if valid.isEmpty then
    ⟨"unknown", mkRat 3 10, "low_confidence_combination", 0, none⟩
  else
    let gs := intentGroups valid
    let sorted := adjustedScores analyses context.lastIntent isFollowUp
    if sorted.isEmpty then ⟨"unknown", mkRat 2 5, "fallback", 0, none⟩
    else
      let bestIntent := firstIntentOf sorted
      let best := bestOf sorted
      let second := secondOf sorted
      let scoreDiff := qSub best second
      if scoreDiff < mkRat 8 100 ∨ best < mkRat 55 100 then
        ⟨"ambiguous", round2 best, "ambiguous_detection", groupsTotal gs,
          some (ambiguityReasonStr scoreDiff best)⟩
      else
        let bestConfidence := qMin best (mkRat 95 100)
        let supporting := groupCount gs bestIntent
        let c1 := if 2 ≤ supporting then qMin 1 (qAdd bestConfidence (mkRat 5 100))
                  else bestConfidence
        let c2 := if 3 ≤ supporting then qMin 1 (qAdd c1 (mkRat 3 100)) else c1
        ⟨bestIntent, c2, "combined_analysis", supporting, none⟩

/-- Membership-preserving set insertion for industry_hints. -/
def addHint (hints : List String) (h : String) : List String :=
  if hints.contains h then hints else hints ++ [h]

/-- _update_conversation_context.  The industry methods are exactly
industry_<name>, so replace('industry_', '') is dropping the 9-character
prefix. -/
def updateConversationContext (ctx : ConvContext) (result : CombineResult)
    (industry : Analysis) : ConvContext :=
  let detected := if result.confidence > mkRat 3 4 then some result.intent
                  else ctx.detectedDomain
  let history0 := ctx.confidenceHistory ++ [result.confidence]
  let history := if history0.length > 10 then pyTakeLast 10 history0 else history0
  let hints := if "industry_".isPrefixOf industry.method
               then addHint ctx.industryHints (industry.method.drop 9)
               else ctx.industryHints
  { ctx with
    detectedDomain := detected
    lastIntent := some result.intent
    confidenceHistory := history
    industryHints := hints }

/-- analyze_conversation for one user: append the message, bump the
interaction count, run the four signals, combine, update the context.
The per-user dict of the source is modelled by explicit context passing. -/
def analyzeConversation (ctx : ConvContext) (text : String) (isFollowUp : Bool) :
    CombineResult × ConvContext :=
  let ctx1 := { ctx with
    messages := ctx.messages ++ [text]
    interactionCount := ctx.interactionCount + 1 }
  let basic := basicIntentDetection text
  let contextual := contextualAnalysis text ctx1
  let industry := industryAnalysis text
  let semantic := semanticAnalysis text
  let finalResult := combineAnalyses basic contextual industry semantic ctx1 isFollowUp
  (finalResult, updateConversationContext ctx1 finalResult industry)

/-! ### DiagramClassifier.py : DiagramIntentClassifier -/

/-- One classification result of DiagramIntentClassifier. -/
structure IntentResult where
  intent : String
  confidence : ℚ
  method : String
deriving DecidableEq

/-- The expansion of r'\bclase(s)? de (yoga|baile|ingles|conducción|natación)\b'. -/
def fpPhrases1 : List String :=
  ["clase de yoga", "clase de baile", "clase de ingles", "clase de conducción",
   "clase de natación", "clases de yoga", "clases de baile", "clases de ingles",
   "clases de conducción", "clases de natación"]

/-- The expansion of r'\bsistema (solar|nervioso|operativo|digestivo|endocrino)\b'. -/
def fpPhrases2 : List String :=
  ["sistema solar", "sistema nervioso", "sistema operativo", "sistema digestivo",
   "sistema endocrino"]

/-- The expansion of r'\bactor(es)? de (cine|teatro|televisión|doblaje)\b'. -/
def fpPhrases3 : List String :=
  ["actor de cine", "actor de teatro", "actor de televisión", "actor de doblaje",
   "actores de cine", "actores de teatro", "actores de televisión",
   "actores de doblaje"]

/-- The expansion of r'\bmétodo(s)? (científico|estudio|enseñanza|aprendizaje)\b'. -/
def fpPhrases4 : List String :=
  ["método científico", "método estudio", "método enseñanza", "método aprendizaje",
   "métodos científico", "métodos estudio", "métodos enseñanza",
   "métodos aprendizaje"]

/-- The false_positive_patterns check; every pattern maps to intent other. -/
def falsePositiveMatch (t : List Char) : Bool :=
  (fpPhrases1 ++ fpPhrases2 ++ fpPhrases3 ++ fpPhrases4).any (wordBoundedPhrase t)

/-- diagram_patterns['diagrama_clases']['high_priority'], one alternation
list per regex. -/
def classHighPatterns : List (List String) :=
  [["clase", "atributo", "método", "propiedad", "herencia", "implementación"],
   ["interface", "interfaz", "enum", "abstracto", "encapsulamiento", "polimorfismo"],
   ["publico", "privado", "protegido", "composición", "agregación", "asociación"],
   ["objeto", "instancia", "constructor", "getter", "setter", "static", "final"]]

def classMediumPatterns : List (List String) :=
  [["entidad", "modelo", "dominio", "estructura", "contrato", "paquete"],
   ["extends", "implementa", "relación", "multiplicidad", "visibilidad"]]

def usecaseHighPatterns : List (List String) :=
  [["actor", "usuario", "sistema", "funcionalidad", "caso de uso"],
   ["interactúa", "realiza", "ejecuta", "escenario", "requisito", "requerimiento"],
   ["rol", "objetivo", "autenticación", "registro", "login", "inicio sesión"]]

def usecaseMediumPatterns : List (List String) :=
  [["cliente", "administrador", "gestión", "proceso", "flujo", "paso"],
   ["permiso", "acceso", "restricción", "nivel", "privilegio"]]

/-- First alternative (in pattern order) matching here with a trailing word
boundary; returns the last matched character and the rest of the input. -/
def firstAltMatch : List (List Char) → List Char → Option (Char × List Char)
  | [], _ => none
  | a :: rest, l =>
    match matchLit a l with
    | some r =>
      if tailBoundary r then
        match a.getLast? with
        | some c => some (c, r)
        | none => firstAltMatch rest l
      else firstAltMatch rest l
    | none => firstAltMatch rest l

/-- len(re.findall(r'\b(alt|...)\b', text)): non-overlapping left-to-right
matches of whole word-bounded alternatives. -/
def countWordAltsGo (alts : List (List Char)) : ℕ → Option Char → List Char → ℕ
  | 0, _, _ => 0
  | _ + 1, _, [] => 0
  | fuel + 1, prev, c :: cs =>
    if boundaryBefore prev then
      match firstAltMatch alts (c :: cs) with
      | some (lastC, rest) => 1 + countWordAltsGo alts fuel (some lastC) rest
      | none => countWordAltsGo alts fuel (some c) cs
    else countWordAltsGo alts fuel (some c) cs

def countWordAlts (alts : List String) (t : List Char) : ℕ :=
  countWordAltsGo (alts.map String.data) (t.length + 1) none t

/-- _calculate_score: sum of findall counts over a pattern list. -/
def scoreOfPatterns (patterns : List (List String)) (t : List Char) : ℕ :=
  (patterns.map (fun p => countWordAlts p t)).sum

/-- DiagramIntentClassifier.classify_intent. -/
def classifyIntent (text : String) : IntentResult :=
  if text = "" ∨ (pyStrip text).length < 10 then
    ⟨"unknown", 0, "text_too_short"⟩
  else
    let t := (pyStrip (pyLower text)).data
    if falsePositiveMatch t then ⟨"other", mkRat 95 100, "false_positive_filter"⟩
    else
      let classHighScore := scoreOfPatterns classHighPatterns t
      let usecaseHighScore := scoreOfPatterns usecaseHighPatterns t
      if classHighScore > 0 ∧ usecaseHighScore = 0 then
        ⟨"diagrama_clases", mkRat 9 10, "high_priority_terms"⟩
      else if usecaseHighScore > 0 ∧ classHighScore = 0 then
        ⟨"diagrama_casos_uso", mkRat 9 10, "high_priority_terms"⟩
      else
        let classMediumScore := scoreOfPatterns classMediumPatterns t
        let usecaseMediumScore := scoreOfPatterns usecaseMediumPatterns t
        let classTotal := classHighScore * 2 + classMediumScore
        let usecaseTotal := usecaseHighScore * 2 + usecaseMediumScore
        if usecaseTotal + 2 ≤ classTotal then
          ⟨"diagrama_clases",
            qMin (mkRat 9 10) (qAdd (mkRat 3 5) (qMul (qOfNat classTotal) (mkRat 1 10))),
            "weighted_scoring"⟩
        else if classTotal + 2 ≤ usecaseTotal then
          ⟨"diagrama_casos_uso",
            qMin (mkRat 9 10) (qAdd (mkRat 3 5) (qMul (qOfNat usecaseTotal) (mkRat 1 10))),
            "weighted_scoring"⟩
        else if classTotal > usecaseTotal then
          ⟨"diagrama_clases", mkRat 3 5, "tie_breaker"⟩
        else if usecaseTotal > classTotal then
          ⟨"diagrama_casos_uso", mkRat 3 5, "tie_breaker"⟩
        else ⟨"unknown", mkRat 1 2, "ambiguous"⟩

/-! ### DiagramClassifier.py : DiagramClassificationService -/

/-- The per-client context dict of the service. -/
structure ServiceContext where
  messages : List String
  lastIntent : Option String
  confidenceHistory : List ℚ
deriving DecidableEq

def freshServiceContext : ServiceContext :=
  { messages := [], lastIntent := none, confidenceHistory := [] }

/-- The context evolution of DiagramClassificationService.classify_text:
append the message, classify, apply the contextual reinforcement boost,
record intent and confidence, and trim both histories to the last 5 entries
whenever messages exceed 10.  The metrics bookkeeping and the returned
payload are not part of the context and are omitted. -/
def serviceStep (ctx : ServiceContext) (text : String) : ServiceContext :=
  let messages1 := ctx.messages ++ [text]
  let ci := classifyIntent text
  let boosted :=
    if ctx.lastIntent = some ci.intent ∧ ci.confidence > mkRat 3 5 then
      { ci with
        confidence := qMin (mkRat 95 100) (qAdd ci.confidence (mkRat 1 10))
        method := ci.method ++ "_with_context" }
    else ci
  let lastIntent1 := some boosted.intent
  let history1 := ctx.confidenceHistory ++ [boosted.confidence]
  if messages1.length > 10 then
    { messages := pyTakeLast 5 messages1, lastIntent := lastIntent1,
      confidenceHistory := pyTakeLast 5 history1 }
  else
    { messages := messages1, lastIntent := lastIntent1,
      confidenceHistory := history1 }

/-! ### main.py : findall/search scanners for build_json_for_decoder -/

def pyIsWordSpace (c : Char) : Bool := pyIsWord c || pyIsSpace c

/-- The tail \s+([\w\s]+) after a matched literal, with the re module's
give-back-one-space behaviour when the greedy \s+ leaves nothing for the
capture.  Returns the capture and the position after the whole match. -/
def parseWsCap (l : List Char) : Option (String × List Char) :=
  match l with
  | d :: _ =>
    if pyIsSpace d then
      let afterWs := l.dropWhile pyIsSpace
      let cap := afterWs.takeWhile pyIsWordSpace
      if !cap.isEmpty then some (⟨cap⟩, afterWs.dropWhile pyIsWordSpace)
      else
        let wsRun := l.takeWhile pyIsSpace
        if wsRun.length ≥ 2 then
          match wsRun.getLast? with
          | some wc => some (⟨[wc]⟩, afterWs)
          | none => none
        else none
    else none
  | [] => none

/-- findall of r'lit(s)?\s+(\w+)' under IGNORECASE; optS enables the
optional s of atributo[s]? and método[s]? . -/
def findLitWsWordGo (lit : List Char) (optS : Bool) : ℕ → List Char → List String
  | 0, _ => []
  | _ + 1, [] => []
  | fuel + 1, c :: cs =>
    match matchLitCI lit (c :: cs) with
    | some r0 =>
      let r1 := if optS then
          (match r0 with
           | d :: dd => if d.toLower = 's' then dd else r0
           | [] => r0)
        else r0
      match dropWs1 r1 with
      | some r2 =>
        let w := r2.takeWhile pyIsWord
        if w.isEmpty then findLitWsWordGo lit optS fuel cs
        else ⟨w⟩ :: findLitWsWordGo lit optS fuel (r2.dropWhile pyIsWord)
      | none => findLitWsWordGo lit optS fuel cs
    | none => findLitWsWordGo lit optS fuel cs

def findLitWsWord (lit text : String) : List String :=
  findLitWsWordGo lit.data false (text.data.length + 1) text.data

def findLitOptSWsWord (lit text : String) : List String :=
  findLitWsWordGo lit.data true (text.data.length + 1) text.data

/-- findall of r'caso de uso\s+([\w\s]+)' under IGNORECASE. -/
def findCasoDeUsoGo : ℕ → List Char → List String
  | 0, _ => []
  | _ + 1, [] => []
  | fuel + 1, c :: cs =>
    match matchLitCI "caso de uso".data (c :: cs) with
    | some r1 =>
      match parseWsCap r1 with
      | some (cap, rest) => cap :: findCasoDeUsoGo fuel rest
      | none => findCasoDeUsoGo fuel cs
    | none => findCasoDeUsoGo fuel cs

def findCasoDeUso (text : String) : List String :=
  findCasoDeUsoGo (text.data.length + 1) text.data

/-- findall of r'(\w+)\s+puede\s+([\w\s]+)' under IGNORECASE. -/
def findPuedeGo : ℕ → List Char → List (String × String)
  | 0, _ => []
  | _ + 1, [] => []
  | fuel + 1, c :: cs =>
    if pyIsWord c then
      let w1 := (c :: cs).takeWhile pyIsWord
      let r1 := (c :: cs).dropWhile pyIsWord
      match dropWs1 r1 with
      | some r2 =>
        match matchLitCI "puede".data r2 with
        | some r3 =>
          match parseWsCap r3 with
          | some (cap, rest) => (⟨w1⟩, cap) :: findPuedeGo fuel rest
          | none => findPuedeGo fuel cs
        | none => findPuedeGo fuel cs
      | none => findPuedeGo fuel cs
    else findPuedeGo fuel cs

def findPuede (text : String) : List (String × String) :=
  findPuedeGo (text.data.length + 1) text.data

/-- findall of r'(\w+)\s+hereda\s+de\s+(\w+)' under IGNORECASE. -/
def findHeredaGo : ℕ → List Char → List (String × String)
  | 0, _ => []
  | _ + 1, [] => []
  | fuel + 1, c :: cs =>
    if pyIsWord c then
      let w1 := (c :: cs).takeWhile pyIsWord
      let r1 := (c :: cs).dropWhile pyIsWord
      match dropWs1 r1 with
      | some r2 =>
        match matchLitCI "hereda".data r2 with
        | some r3 =>
          match dropWs1 r3 with
          | some r4 =>
            match matchLitCI "de".data r4 with
            | some r5 =>
              match dropWs1 r5 with
              | some r6 =>
                let w2 := r6.takeWhile pyIsWord
                if w2.isEmpty then findHeredaGo fuel cs
                else (⟨w1⟩, ⟨w2⟩) :: findHeredaGo fuel (r6.dropWhile pyIsWord)
              | none => findHeredaGo fuel cs
            | none => findHeredaGo fuel cs
          | none => findHeredaGo fuel cs
        | none => findHeredaGo fuel cs
      | none => findHeredaGo fuel cs
    else findHeredaGo fuel cs

def findHereda (text : String) : List (String × String) :=
  findHeredaGo (text.data.length + 1) text.data

/-! ### main.py : build_json_for_decoder, use-case branch -/

def replaceSpaceUnderscore (s : String) : String :=
  ⟨s.data.map (fun c => if c = ' ' then '_' else c)⟩

/-- Deduplication; the source deduplicates through a Python set whose
iteration order is unspecified, so first-occurrence order is fixed here
(the set of records is the observable content). -/
def dedupKeepFirst {α : Type} [DecidableEq α] (l : List α) : List α :=
  l.foldl (fun acc x => if acc.contains x then acc else acc ++ [x]) []

def mkBuiltActor (nm : String) : UCActor :=
  { name := some nm, aliasName := some (pyLower nm), stereotype := some "",
    business := some false }

def mkBuiltUseCase (u : String) : UCCase :=
  let s := pyStrip u
  { name := some s, aliasName := some (pyLower (replaceSpaceUnderscore s)),
    stereotype := some "", business := some false }

/-- The diagrama_casos_uso branch of build_json_for_decoder; the classifier
context contributes only its messages list. -/
def buildUseCaseJson (text : String) (ctxMessages : List String) : JsonData :=
  let actors1 := ctxMessages.foldl
    (fun acc msg => acc ++ (findLitWsWord "actor" msg).map mkBuiltActor)
    ((findLitWsWord "actor" text).map mkBuiltActor)
  let actors := dedupKeepFirst actors1
  let useCases1 := ctxMessages.foldl
    (fun acc msg => acc ++ (findCasoDeUso msg).map mkBuiltUseCase)
    ((findCasoDeUso text).map mkBuiltUseCase)
  let useCases := dedupKeepFirst useCases1
  let relationships := (findPuede text).map (fun pr =>
    ({ type := some "actor_usecase", principal := some pr.1,
       secondary := some (pyLower (replaceSpaceUnderscore (pyStrip pr.2))),
       direction := some "right", label := some "", extend := none,
       stereotype := none } : UCRel))
  { diagramType := some "useCaseDiagram", declaringElements := [],
    relationShips := [], actors := actors, useCases := useCases,
    packages := [], relationships := relationships }

/-! ### main.py : build_json_for_decoder, class branch -/

def pyIsUpperStart (c : Char) : Bool :=
  ('A' ≤ c && c ≤ 'Z') || c = 'Á' || c = 'É' || c = 'Í' || c = 'Ó' || c = 'Ú' || c = 'Ñ'

/-- re.sub(r'^[^\wÀ-ÿ_]+', '', n). -/
def subLeadingNonWordExt (s : String) : String :=
  ⟨s.data.dropWhile (fun c => !pyIsWordExt c)⟩

/-- re.sub(r'^[A-Za-zÀ-ÿ0-9_]+:\s*', '', n). -/
def subLeadingTag (s : String) : String :=
  let run := s.data.takeWhile pyIsWordExt
  if run.isEmpty then s
  else
    match s.data.drop run.length with
    | ':' :: r => ⟨r.dropWhile pyIsSpace⟩
    | _ => s

/-- re.sub(r'[^\wÀ-ÿ_].*$', '', n). -/
def truncAtNonWordExt (s : String) : String :=
  ⟨s.data.takeWhile pyIsWordExt⟩

/-- re.sub(r'\(.*\)', '', s): the greedy span from the first opening paren
to the last closing paren after it is removed. -/
def removeParenSpan (s : String) : String :=
  match s.data.findIdx? (fun c => c = '(') with
  | none => s
  | some i =>
    let js := (List.range s.data.length).filter
      (fun j => decide (i < j) && (s.data.getD j ' ' = ')'))
    match js.getLast? with
    | none => s
    | some j => ⟨s.data.take i ++ s.data.drop (j + 1)⟩

/-- One delimiter of re.split(r',|\s+y\s+', s) starting here. -/
def delimSuffix (l : List Char) : Option (List Char) :=
  match l with
  | ',' :: r => some r
  | _ =>
    match dropWs1 l with
    | some ('y' :: r2) => dropWs1 r2
    | _ => none

def splitCommaYGo : ℕ → List Char → List Char → List String
  | 0, acc, _ => [⟨acc.reverse⟩]
  | _ + 1, acc, [] => [⟨acc.reverse⟩]
  | fuel + 1, acc, c :: cs =>
    match delimSuffix (c :: cs) with
    | some r => ⟨acc.reverse⟩ :: splitCommaYGo fuel [] r
    | none => splitCommaYGo fuel (c :: acc) cs

/-- re.split(r',|\s+y\s+', s). -/
def pySplitCommaY (s : String) : List String :=
  splitCommaYGo (s.data.length + 1) [] s.data

/-- Leftmost position where a tail matcher succeeds. -/
def searchPos (f : List Char → Option String) : ℕ → List Char → Option String
  | 0, _ => none
  | _ + 1, [] => none
  | fuel + 1, c :: cs =>
    match f (c :: cs) with
    | some r => some r
    | none => searchPos f fuel cs

/-- The tail atribut(?:o|os)\s*[:\-]?\s*([^;]+) of the pre-parsed block
regex (the alternative o is tried first, so the capture may keep a leading
s: which the token cleanup strips). -/
def preAttrCapture (l : List Char) : Option String :=
  match matchLitCI "atribut".data l with
  | some (c :: rr) =>
    if c.toLower = 'o' then
      let r3 := rr.dropWhile pyIsSpace
      let r4 := match r3 with
                | ':' :: q => q
                | '-' :: q => q
                | _ => r3
      let r5 := r4.dropWhile pyIsSpace
      let cap := r5.takeWhile (fun ch => ch ≠ ';')
      if cap.isEmpty then none else some ⟨cap⟩
    else none
  | _ => none

/-- The tail métod(?:o|os)\s*[:\-]?\s*([^;]+). -/
def preMethodCapture (l : List Char) : Option String :=
  match matchLitCI "métod".data l with
  | some (c :: rr) =>
    if c.toLower = 'o' then
      let r3 := rr.dropWhile pyIsSpace
      let r4 := match r3 with
                | ':' :: q => q
                | '-' :: q => q
                | _ => r3
      let r5 := r4.dropWhile pyIsSpace
      let cap := r5.takeWhile (fun ch => ch ≠ ';')
      if cap.isEmpty then none else some ⟨cap⟩
    else none
  | _ => none

def searchAtributBlock (rest : String) : Option String :=
  searchPos preAttrCapture (rest.data.length + 1) rest.data

def searchMetodBlock (rest : String) : Option String :=
  searchPos preMethodCapture (rest.data.length + 1) rest.data

/-- finditer of r"\b([A-ZÁÉÍÓÚÑ]\w*)\s*:\s*([^\n]+)" (case-sensitive). -/
def findPreParsedGo : ℕ → Option Char → List Char → List (String × String)
  | 0, _, _ => []
  | _ + 1, _, [] => []
  | fuel + 1, prev, c :: cs =>
    if boundaryBefore prev && pyIsUpperStart c then
      let cls := c :: cs.takeWhile pyIsWord
      let r1 := cs.dropWhile pyIsWord
      let r2 := r1.dropWhile pyIsSpace
      match r2 with
      | ':' :: r3 =>
        let r4 := r3.dropWhile pyIsSpace
        let restCap := r4.takeWhile (fun ch => ch ≠ '\n')
        match restCap.getLast? with
        | some lc =>
          (⟨cls⟩, ⟨restCap⟩) ::
            findPreParsedGo fuel (some lc) (r4.dropWhile (fun ch => ch ≠ '\n'))
        | none => findPreParsedGo fuel (some c) cs
      | _ => findPreParsedGo fuel (some c) cs
    else findPreParsedGo fuel (some c) cs

def findPreParsed (text : String) : List (String × String) :=
  findPreParsedGo (text.data.length + 1) none text.data

/-- The attribute and method name lists pre-parsed for one class block. -/
structure PreEntry where
  attributes : List String
  methods : List String
deriving DecidableEq

/-- Token cleanup of the pre-parsed attribute path: strip, drop leading
non-word characters, drop a leading word: tag, truncate at the first
non-word character. -/
def cleanPreAttrToken (tok : String) : String :=
  truncAtNonWordExt (subLeadingTag (subLeadingNonWordExt (pyStrip tok)))

/-- Token cleanup of the pre-parsed method path: remove the paren span,
strip, drop a leading word: tag, truncate at the first non-word char. -/
def cleanPreMethodToken (tok : String) : String :=
  truncAtNonWordExt (subLeadingTag (pyStrip (removeParenSpan tok)))

/-- Python dict insertion with overwrite keeping the original key slot. -/
def pyUpsert (m : List (String × PreEntry)) (k : String) (v : PreEntry) :
    List (String × PreEntry) :=
  if m.any (fun p => p.1 == k) then
    m.map (fun p => if p.1 == k then (k, v) else p)
  else m ++ [(k, v)]

def preLookup (m : List (String × PreEntry)) (k : String) : Option PreEntry :=
  match m.find? (fun p => p.1 == k) with
  | some p => some p.2
  | none => none

/-- The pre_parsed dict of build_json_for_decoder. -/
def preParse (text : String) : List (String × PreEntry) :=
  (findPreParsed text).foldl (fun m pr =>
    let attrs := match searchAtributBlock pr.2 with
      | some cap => ((pySplitCommaY cap).map cleanPreAttrToken).filter (fun n => n ≠ "")
      | none => []
    let methods := match searchMetodBlock pr.2 with
      | some cap => ((pySplitCommaY cap).map cleanPreMethodToken).filter (fun n => n ≠ "")
      | none => []
    if attrs ≠ [] ∨ methods ≠ [] then pyUpsert m pr.1 ⟨attrs, methods⟩ else m) []

/-- The repetition (?:\s*,\s*Name|\s+y\s+Name)* of the class-list regex;
returns the consumed text verbatim and the remaining input. -/
def consumeNameListRep : ℕ → List Char → List Char × List Char
  | 0, l => ([], l)
  | fuel + 1, l =>
    let ws1 := l.takeWhile pyIsSpace
    let l1 := l.dropWhile pyIsSpace
    match l1 with
    | ',' :: l2 =>
      let ws2 := l2.takeWhile pyIsSpace
      let l3 := l2.dropWhile pyIsSpace
      (match l3 with
       | c :: cs =>
         if pyIsUpperStart c then
           let nm := c :: cs.takeWhile pyIsWord
           let (more, rest) := consumeNameListRep fuel (cs.dropWhile pyIsWord)
           (ws1 ++ [','] ++ ws2 ++ nm ++ more, rest)
         else ([], l)
       | [] => ([], l))
    | 'y' :: l2 =>
      if ws1.isEmpty then ([], l)
      else
        let ws2 := l2.takeWhile pyIsSpace
        let l3 := l2.dropWhile pyIsSpace
        if ws2.isEmpty then ([], l)
        else
          (match l3 with
           | c :: cs =>
             if pyIsUpperStart c then
               let nm := c :: cs.takeWhile pyIsWord
               let (more, rest) := consumeNameListRep fuel (cs.dropWhile pyIsWord)
               (ws1 ++ ['y'] ++ ws2 ++ nm ++ more, rest)
             else ([], l)
           | [] => ([], l))
    | _ => ([], l)

/-- The capture of r'clases?\s+([A-ZÁÉÍÓÚÑ][\w]*(?:\s*,\s*..|\s+y\s+..)*)'
at one position (case-sensitive). -/
def clasesListAt (l : List Char) : Option String :=
  match matchLit "clase".data l with
  | some r0 =>
    let r1 := match r0 with
              | 's' :: rr => rr
              | _ => r0
    match dropWs1 r1 with
    | some r2 =>
      match r2 with
      | c :: cs =>
        if pyIsUpperStart c then
          let first := c :: cs.takeWhile pyIsWord
          let (more, _) := consumeNameListRep (cs.length + 1) (cs.dropWhile pyIsWord)
          some ⟨first ++ more⟩
        else none
      | [] => none
    | none => none
  | none => none

def searchClasesList (text : String) : Option String :=
  searchPos clasesListAt (text.data.length + 1) text.data

/-- The tail atributo[s]?\s+([\w\s,]+) of the per-class attribute regex. -/
def classAttrTail (l : List Char) : Option String :=
  match matchLitCI "atributo".data l with
  | some r1 =>
    let r2 := match r1 with
              | d :: dd => if d.toLower = 's' then dd else r1
              | [] => r1
    match dropWs1 r2 with
    | some r3 =>
      let cap := r3.takeWhile (fun ch => pyIsWord ch || pyIsSpace ch || ch = ',')
      if cap.isEmpty then none else some ⟨cap⟩
    | none => none
  | none => none

/-- The tail método[s]?\s+([\w\s,()]+) of the per-class method regex. -/
def classMethodTail (l : List Char) : Option String :=
  match matchLitCI "método".data l with
  | some r1 =>
    let r2 := match r1 with
              | d :: dd => if d.toLower = 's' then dd else r1
              | [] => r1
    match dropWs1 r2 with
    | some r3 =>
      let cap := r3.takeWhile
        (fun ch => pyIsWord ch || pyIsSpace ch || ch = ',' || ch = '(' || ch = ')')
      if cap.isEmpty then none else some ⟨cap⟩
    | none => none
  | none => none

/-- The greedy [^\.\,\n]* gap: the tail must match at some offset within the
gap, and the re module's greedy backtracking selects the last offset that
works. -/
def lastGapMatch (l : List Char) (gapLen : ℕ) (tail : List Char → Option String) :
    Option String :=
  (List.range (gapLen + 1)).foldl (fun acc i =>
    match tail (l.drop i) with
    | some cap => some cap
    | none => acc) none

/-- re.search of rf'{class_name}[^\.\,\n]*TAIL' under IGNORECASE. -/
def searchNameGapTail (clsName : String) (tail : List Char → Option String) :
    ℕ → List Char → Option String
  | 0, _ => none
  | _ + 1, [] => none
  | fuel + 1, c :: cs =>
    match matchLitCI clsName.data (c :: cs) with
    | some r1 =>
      let gapLen := (r1.takeWhile (fun ch => !(ch = '.' || ch = ',' || ch = '\n'))).length
      match lastGapMatch r1 gapLen tail with
      | some cap => some cap
      | none => searchNameGapTail clsName tail fuel cs
    | none => searchNameGapTail clsName tail fuel cs

def searchClassAttrBlock (clsName text : String) : Option String :=
  searchNameGapTail clsName classAttrTail (text.data.length + 1) text.data

def searchClassMethodBlock (clsName text : String) : Option String :=
  searchNameGapTail clsName classMethodTail (text.data.length + 1) text.data

def mkAttrRec (n : String) : ClassAttr :=
  { name := some n, type := some "String", visibility := some "public",
    isStatic := some false, isFinal := some false }

def mkMethodRec (n : String) : ClassMethod :=
  { name := some n, returnType := some "void", visibility := some "public",
    isAbstract := some false, params := [] }

/-- The attribute list of one declared class: pre-parsed entries first, then
the per-class regex matches without duplicates, or (with at most one class
and no per-class match) the global fallback findall. -/
def buildClassAttrs (className text : String) (classNamesCount : ℕ)
    (pre : Option PreEntry) : List ClassAttr :=
  let fromPre := match pre with
                 | some e => e.attributes.map mkAttrRec
                 | none => []
  match searchClassAttrBlock className text with
  | some cap =>
    (pySplitCommaY cap).foldl (fun acc tok =>
      let n := pyStrip tok
      if n ≠ "" then
        if acc.any (fun a => a.name == some n) then acc else acc ++ [mkAttrRec n]
      else acc) fromPre
  | none =>
    if classNamesCount ≤ 1 then
      fromPre ++ (findLitOptSWsWord "atributo" text).map mkAttrRec
    else fromPre

/-- The method list of one declared class, analogous to the attributes. -/
def buildClassMethods (className text : String) (classNamesCount : ℕ)
    (pre : Option PreEntry) : List ClassMethod :=
  let fromPre := match pre with
                 | some e => e.methods.map mkMethodRec
                 | none => []
  match searchClassMethodBlock className text with
  | some cap =>
    (pySplitCommaY cap).foldl (fun acc tok =>
      let n := pyStrip (removeParenSpan tok)
      if n ≠ "" then
        if acc.any (fun m => m.name == some n) then acc else acc ++ [mkMethodRec n]
      else acc) fromPre
  | none =>
    if classNamesCount ≤ 1 then
      fromPre ++ (findLitOptSWsWord "método" text).map mkMethodRec
    else fromPre

/-- The diagrama_clases branch of build_json_for_decoder. -/
def buildClassJson (text : String) (ctxMessages : List String) : JsonData :=
  let preParsed := preParse text
  let names0 := findLitWsWord "clase" text
  let names1 := if names0 = [] then
      (match searchClasesList text with
       | some g => ((pySplitCommaY g).map pyStrip).filter (fun n => n ≠ "")
       | none => [])
    else names0
  let names2 := ctxMessages.foldl
    (fun acc msg => acc ++ findLitWsWord "clase" msg) names1
  let names3 := if names2 = [] ∧ preParsed ≠ [] then preParsed.map (fun p => p.1)
    else names2 ++ ((preParsed.map (fun p => p.1)).filter (fun k => !names2.contains k))
  let classNames := dedupKeepFirst names3
  let declaringElements := classNames.map (fun cn =>
    ({ type := some "class", name := some cn,
       attributes := buildClassAttrs cn text classNames.length (preLookup preParsed cn),
       methods := buildClassMethods cn text classNames.length (preLookup preParsed cn)
     } : ClassElement))
  let relationShips := (findHereda text).map (fun pr =>
    ({ type := some "inheritance", source := some pr.1, target := some pr.2,
       multiplicity := some [some "", some "", some "", some ""] } : ClassRel))
  let filtered := declaringElements.map (fun el =>
    { el with attributes :=
        el.attributes.filter (fun a => !(a.name.getD "").data.contains ' ') })
  { diagramType := some "classDiagram", declaringElements := filtered,
    relationShips := relationShips, actors := [], useCases := [], packages := [],
    relationships := [] }

/-- build_json_for_decoder: dispatch on the classified diagram type; every
other intent yields no model (None). -/
def buildJsonForDecoder (text diagramType : String) (ctxMessages : List String) :
    Option JsonData :=
  if diagramType = "diagrama_clases" then some (buildClassJson text ctxMessages)
  else if diagramType = "diagrama_casos_uso" then some (buildUseCaseJson text ctxMessages)
  else none

/-! ### Concrete classifier inputs used by counterexamples and witnesses -/

/-- A text with the decisive class term clase, no decisive use-case term,
and five use-case-domain keywords for the contextual signal to count. -/
def c2text : String := "clase tarea rol paso flujo proceso"

/-- A reachable-shaped user context whose previous turns were classified as
use-case with high confidence. -/
def c2ctx : ConvContext :=
  { messages := [], detectedDomain := some "diagrama_casos_uso",
    confidenceHistory := [mkRat 9 10, mkRat 9 10], lastIntent := some "diagrama_casos_uso",
    industryHints := [], interactionCount := 1 }

/-- Scenario B input of the spec. -/
def scenarioBText : String :=
  "Actor Cliente interactúa con el sistema. Caso de uso: realizar pedido"

/-- Scenario C input of the spec. -/
def scenarioCText : String := "clase de yoga los martes"

/-- Fifteen classification calls with one short message. -/
def hola15 : List String := List.replicate 15 "hola"

/-- A lone signal above the validity filter but below the 0.55 floor. -/
def cwAnalysis : Analysis := ⟨"diagrama_clases", mkRat 2 5, "basic_analysis"⟩

/-- A signal that the confidence filter discards. -/
def cwZero : Analysis := ⟨"unknown", 0, "semantic_analysis"⟩

/-- A concrete combiner result for the context-update witness. -/
def cwResult : CombineResult :=
  ⟨"diagrama_clases", mkRat 1 2, "combined_analysis", 1, none⟩

end SistemaUML

namespace SistemaUML

/-! ### General string lemmas -/

theorem strAppendEmptyL (s : String) : "" ++ s = s := by
  cases s with
  | mk l => rfl

theorem strAppendEmptyR (s : String) : s ++ "" = s := by
  cases s with
  | mk l => show String.mk (l ++ []) = String.mk l
            rw [List.append_nil]

theorem strAppendAssoc (a b c : String) : a ++ b ++ c = a ++ (b ++ c) := by
  cases a with
  | mk la =>
    cases b with
    | mk lb =>
      cases c with
      | mk lc => show String.mk (la ++ lb ++ lc) = String.mk (la ++ (lb ++ lc))
                 rw [List.append_assoc]

/-- A foldl that appends a rendered piece per item equals the accumulator
followed by the concatenation of the pieces. -/
theorem foldl_append_piece {α : Type} (f : α → String) :
    ∀ (l : List α) (acc : String),
      l.foldl (fun a x => a ++ f x) acc = acc ++ strJoin (l.map f) := by
  intro l
  induction l with
  | nil => intro acc; simp [strJoin, strAppendEmptyR]
  | cons x xs ih =>
    intro acc
    simp only [List.foldl_cons, List.map_cons, strJoin]
    rw [ih, strAppendAssoc]

theorem foldl_ucItem (l : List UCCase) (acc : String) :
    l.foldl decodeUseCaseItem acc = acc ++ strJoin (l.map ucItemCode) := by
  have h := foldl_append_piece ucItemCode l acc
  simpa [decodeUseCaseItem] using h

theorem foldl_ucActor (l : List UCActor) (acc : String) :
    l.foldl decodeUseCaseActor acc = acc ++ strJoin (l.map ucActorCode) := by
  have h := foldl_append_piece ucActorCode l acc
  simpa [decodeUseCaseActor] using h

theorem foldl_ucRel (l : List UCRel) (acc : String) :
    l.foldl decodeRelationship acc = acc ++ strJoin (l.map relItemCode) := by
  have h := foldl_append_piece relItemCode l acc
  simpa [decodeRelationship] using h

set_option maxRecDepth 8192

mutual

theorem decodePackageItem_detach : ∀ (p : UCPackage) (cur : String),
    decodePackageItem cur p = cur ++ pkgItemCode p
  | .mk nm al ucs acts subs, cur => by
    have hsubs := decodePackageList_detach subs
    simp only [decodePackageItem, pkgItemCode]
    simp only [foldl_ucItem, foldl_ucActor]
    simp only [hsubs]
    simp only [strAppendAssoc, strAppendEmptyL]

theorem decodePackageList_detach : ∀ (ps : List UCPackage) (cur : String),
    decodePackageList cur ps = cur ++ pkgListCode ps
  | [], cur => by simp [decodePackageList, pkgListCode, strAppendEmptyR]
  | p :: rest, cur => by
    have hp := decodePackageItem_detach p
    have hr := decodePackageList_detach rest
    have h1 : pkgListCode (p :: rest) = pkgItemCode p ++ pkgListCode rest := by
      show decodePackageList "" (p :: rest) = _
      rw [decodePackageList, hp, hr, strAppendEmptyL]
    rw [decodePackageList, hp, hr, h1, strAppendAssoc]

end

theorem pkgListCode_join (ps : List UCPackage) :
    pkgListCode ps = strJoin (ps.map pkgItemCode) := by
  induction ps with
  | nil => rfl
  | cons p rest ih =>
    have h1 : pkgListCode (p :: rest) = pkgItemCode p ++ pkgListCode rest := by
      show decodePackageList "" (p :: rest) = _
      rw [decodePackageList, decodePackageItem_detach, decodePackageList_detach,
        strAppendEmptyL]
    rw [h1, ih]
    rfl

/-- Generalization of foldl_append_piece: any step function that appends a
piece detaches from its accumulator. -/
theorem foldl_detach_join {α : Type} (h : String → α → String) (g : α → String)
    (hh : ∀ cur x, h cur x = cur ++ g x) :
    ∀ (l : List α) (acc : String), l.foldl h acc = acc ++ strJoin (l.map g) := by
  intro l
  induction l with
  | nil => intro acc; simp [strJoin, strAppendEmptyR]
  | cons x xs ih =>
    intro acc
    simp only [List.foldl_cons, List.map_cons, strJoin]
    rw [hh, ih, strAppendAssoc]

theorem classElementStep_detach (rels : List ClassRel) (acc : String)
    (element : ClassElement) :
    classElementStep rels acc element
      = acc ++ (elementCode element ++ strJoin (rels.map relLine)) := by
  simp only [classElementStep, elementCode]
  rw [foldl_append_piece, foldl_append_piece, foldl_append_piece]
  simp only [strAppendAssoc, strAppendEmptyL]

theorem length_bind_const {α β : Type} (l : List α) (ys : List β) :
    (l.flatMap (fun _ => ys)).length = l.length * ys.length := by
  induction l with
  | nil => simp
  | cons x xs ih =>
    simp only [List.flatMap_cons, List.length_append, List.length_cons, ih]
    ring

/-- The relationship line as a function of the two endpoint labels. -/
theorem relLine_shape (r : ClassRel) :
    relLine r = (r.source.getD "") ++ " " ++ multEndLabel r.multiplicity 0 ++ " "
      ++ pyDictGet relationsType (r.type.getD "") "--" ++ " "
      ++ multEndLabel r.multiplicity 3 ++ " " ++ (r.target.getD "") ++ "\n" := by
  simp only [relLine, multEndLabel, multEntry]
  cases r.multiplicity with
  | none => rfl
  | some l =>
    rcases h0 : l[0]? with _ | (_ | v0) <;>
      rcases h3 : l[3]? with _ | (_ | v3) <;>
      simp [h0, h3]

/-! ### Claim C3 -/

/-- C3 (counterexample): on a model with one package and one relationship
the generator's output differs from the order stated by the claim (actors,
use cases, relationships, then packages); the code emits the package block
before the relationship line. -/
theorem c3_spec_order_refuted :
    decodeUseCaseCode ucOrderData ≠ useCaseCodeSpecOrder ucOrderData := by
  decide

/-- C3 (amended): for every use-case model the generated DSL is all actor
declarations, then all top-level use-case declarations, then the package
blocks emitted recursively (each package opens a named block, emits its own
use cases, then its actors, then its sub-packages, then closes the block),
and only then all relationship lines. -/
theorem c3_use_case_generator_order (d : JsonData) :
    decodeUseCaseCode d =
      strJoin (d.actors.map ucActorCode) ++ strJoin (d.useCases.map ucItemCode)
        ++ pkgListCode d.packages ++ strJoin (d.relationships.map relItemCode)
    ∧ ∀ (nm al : String) (ucs : List UCCase) (acts : List UCActor)
        (subs : List UCPackage),
        pkgItemCode (UCPackage.mk nm al ucs acts subs) =
          "package \"" ++ nm ++ "\" as " ++ al ++ " \x7b\n"
            ++ strJoin (ucs.map ucItemCode) ++ strJoin (acts.map ucActorCode)
            ++ strJoin (subs.map pkgItemCode) ++ "\x7d\n" := by
  constructor
  · simp only [decodeUseCaseCode]
    rw [foldl_ucActor, foldl_ucItem, decodePackageList_detach, foldl_ucRel]
    simp only [strAppendAssoc, strAppendEmptyL]
  · intro nm al ucs acts subs
    show decodePackageItem "" (UCPackage.mk nm al ucs acts subs) = _
    simp only [decodePackageItem]
    rw [foldl_ucItem, foldl_ucActor, decodePackageList_detach, pkgListCode_join]
    simp only [strAppendAssoc, strAppendEmptyL]

/-! ### Claim C4 -/

/-- C4 (counterexample): with diagramType present but unrecognized
("sequenceDiagram"), generation does not surface an error: it returns the
bare begin/end marker pair, i.e. silently produces empty DSL output. -/
theorem c4_unknown_type_silently_ok :
    jsonToPlantuml unknownTypeData = Except.ok "@startuml Diagram\n@enduml" := rfl

/-- C4 (amended): for every model whose diagramType field is present but
neither classDiagram nor useCaseDiagram, generation is not fatal and reports
no error: it returns the empty wrapper "@startuml Diagram\n@enduml" (only a
missing diagramType key terminates the process, modelled as Except.error). -/
theorem c4_unknown_type_behavior (d : JsonData) (t : String)
    (ht : d.diagramType = some t) (h1 : t ≠ "classDiagram")
    (h2 : t ≠ "useCaseDiagram") :
    jsonToPlantuml d = Except.ok "@startuml Diagram\n@enduml" := by
  simp only [jsonToPlantuml, ht, h1, h2, if_false]
  rfl

/-- C4 witness: the amended statement at a concrete unrecognized type. -/
theorem c4_witness :
    unknownTypeData2.diagramType = some "otherDiagram"
    ∧ jsonToPlantuml unknownTypeData2 = Except.ok "@startuml Diagram\n@enduml" :=
  ⟨rfl, c4_unknown_type_behavior unknownTypeData2 "otherDiagram" rfl
    (by decide) (by decide)⟩

/-! ### Claim C5 -/

/-- C5 (counterexample): an attribute whose visibility token is outside the
table is rendered with the empty string, not with the claimed default
symbol +: the whole generated text contains no + at all. -/
theorem c5_unmapped_attr_visibility_empty :
    decodeClassCode unmappedVisData = "class A\nA :    Int x\n"
    ∧ strContainsSub (decodeClassCode unmappedVisData) "+" = false := by
  decide

/-- C5 (amended): a visibility token outside the mapping table defaults to
+ only on method lines; on attribute lines the unmapped default is the
empty string (the attribute lookup is .get(..., '')). -/
theorem c5_visibility_default_by_kind (v : String)
    (hv : pyDictHasKey visibilities v = false) :
    attrVisSymbol (some v) = "" ∧ methodVisSymbol (some v) = "+" := by
  have hfind : visibilities.find? (fun p => p.1 == v) = none := by
    cases hf : visibilities.find? (fun p => p.1 == v) with
    | none => rfl
    | some p => rw [pyDictHasKey, hf] at hv; simp at hv
  constructor
  · simp [attrVisSymbol, pyDictGet, hfind]
  · simp [methodVisSymbol, pyDictGet, hfind]

/-- C5 witness: the amended statement at the concrete unmapped token foo. -/
theorem c5_witness :
    pyDictHasKey visibilities "foo" = false
    ∧ attrVisSymbol (some "foo") = "" ∧ methodVisSymbol (some "foo") = "+" :=
  ⟨by decide, (c5_visibility_default_by_kind "foo" (by decide)).1,
    (c5_visibility_default_by_kind "foo" (by decide)).2⟩

/-! ### Claim C6 -/

/-- C6: the relationship loop runs once per declaring element, so the
generated DSL is the per-element text each followed by the full relationship
block, and the emitted relationship lines number n*m for n declaring
elements and m entries of the diagram-level relationShips list. -/
theorem c6_relationships_repeated_per_element (d : JsonData) :
    decodeClassCode d =
      strJoin (d.declaringElements.map
        (fun el => elementCode el ++ strJoin (d.relationShips.map relLine)))
    ∧ (d.declaringElements.flatMap (fun _ => d.relationShips.map relLine)).length
        = d.declaringElements.length * d.relationShips.length := by
  constructor
  · simp only [decodeClassCode]
    rw [foldl_detach_join (classElementStep d.relationShips)
      (fun el => elementCode el ++ strJoin (d.relationShips.map relLine))
      (classElementStep_detach d.relationShips)]
    rw [strAppendEmptyL]
  · rw [length_bind_const, List.length_map]

/-! ### Claim C7 -/

/-- C7: the relationship line uses only positions 0 and 3 of the
multiplicity array as the source-end and target-end labels; two multiplicity
values agreeing at those positions give identical lines (positions 1 and 2
never appear), and a missing, short, or None-valued entry degrades to the
empty endpoint label rather than an error. -/
theorem c7_multiplicity_uses_only_ends :
    (∀ r : ClassRel,
        relLine r = (r.source.getD "") ++ " " ++ multEndLabel r.multiplicity 0 ++ " "
          ++ pyDictGet relationsType (r.type.getD "") "--" ++ " "
          ++ multEndLabel r.multiplicity 3 ++ " " ++ (r.target.getD "") ++ "\n")
    ∧ (∀ (r : ClassRel) (m₁ m₂ : Option (List (Option String))),
        multEntry m₁ 0 = multEntry m₂ 0 → multEntry m₁ 3 = multEntry m₂ 3 →
        relLine { r with multiplicity := m₁ } = relLine { r with multiplicity := m₂ })
    ∧ (∀ (m : Option (List (Option String))) (i : ℕ),
        multEntry m i = none → multEndLabel m i = "") := by
  refine ⟨relLine_shape, ?_, ?_⟩
  · intro r m₁ m₂ h0 h3
    rw [relLine_shape, relLine_shape]
    simp only [multEndLabel, h0, h3]
  · intro m i h
    simp [multEndLabel, h]

/-! ### Combiner lemmas (claim C1) -/

theorem insertDesc_length (x : String × ℚ) (l : List (String × ℚ)) :
    (insertDesc x l).length = l.length + 1 := by
  induction l with
  | nil => rfl
  | cons y rest ih =>
    simp only [insertDesc]
    by_cases h : y.2 ≥ x.2 <;> simp [h, ih]

theorem sortDesc_length_aux (l : List (String × ℚ)) :
    ∀ acc : List (String × ℚ),
      (l.foldl (fun acc x => insertDesc x acc) acc).length = acc.length + l.length := by
  induction l with
  | nil => intro acc; simp
  | cons x xs ih =>
    intro acc
    simp only [List.foldl_cons]
    rw [ih, insertDesc_length]
    simp only [List.length_cons]
    omega

theorem sortDesc_length (l : List (String × ℚ)) :
    (sortDescByScore l).length = l.length := by
  simp [sortDescByScore, sortDesc_length_aux]

theorem addToGroups_ne_nil (gs : List (String × List ℚ)) (a : Analysis) :
    addToGroups gs a ≠ [] := by
  simp only [addToGroups]
  by_cases h : gs.any (fun g => g.1 == a.intent)
  · simp only [h, if_true]
    intro hcon
    rcases gs with _ | ⟨g, rest⟩
    · simp at h
    · simp at hcon
  · simp only [h, if_false]
    intro hcon
    simp at hcon

theorem foldl_addToGroups_ne_nil (rest : List Analysis) :
    ∀ gs : List (String × List ℚ), gs ≠ [] → rest.foldl addToGroups gs ≠ [] := by
  induction rest with
  | nil => intro gs h; simpa using h
  | cons a rs ih =>
    intro gs _
    simp only [List.foldl_cons]
    exact ih (addToGroups gs a) (addToGroups_ne_nil gs a)

theorem intentGroups_ne_nil (l : List Analysis) (h : l ≠ []) :
    intentGroups l ≠ [] := by
  rcases l with _ | ⟨a, rest⟩
  · exact absurd rfl h
  · simp only [intentGroups, List.foldl_cons]
    exact foldl_addToGroups_ne_nil rest (addToGroups [] a) (addToGroups_ne_nil [] a)

theorem followUpBoost_length (scores : List (String × ℚ)) (li : Option String)
    (fu : Bool) : (applyFollowUpBoost scores li fu).length = scores.length := by
  simp only [applyFollowUpBoost]
  by_cases hf : fu
  · simp only [hf, if_true]
    cases li with
    | none => rfl
    | some i =>
      by_cases hk : scores.any (fun p => p.1 == i) <;> simp [hk]
  · simp [hf]

theorem adjustedScores_ne_nil (l : List Analysis) (li : Option String) (fu : Bool)
    (h : validAnalyses l ≠ []) : adjustedScores l li fu ≠ [] := by
  have hg : intentGroups (validAnalyses l) ≠ [] := intentGroups_ne_nil _ h
  have hlen : (adjustedScores l li fu).length
      = (intentGroups (validAnalyses l)).length := by
    simp only [adjustedScores]
    rw [sortDesc_length]
    simp only [applyCountBoost, List.length_map]
    rw [followUpBoost_length]
    simp [avgScores]
  intro hcon
  rw [hcon] at hlen
  have : (intentGroups (validAnalyses l)).length ≠ 0 := by
    simpa [List.length_eq_zero] using hg
  simp at hlen
  exact this hlen.symm

/-! ### Claim C1 -/

/-- C1: whenever at least one of the four signals passes the
confidence > 0.3 filter and the sorted adjusted scores satisfy
(best - second) < 0.08 or best < 0.55, the combiner returns intent
ambiguous, confidence round(best, 2), and an ambiguity_reason enumerating
exactly the conditions that triggered. -/
theorem c1_ambiguity_rule (b c i s : Analysis) (ctx : ConvContext) (fu : Bool)
    (hv : validAnalyses [b, c, i, s] ≠ [])
    (hd : qSub (bestOf (adjustedScores [b, c, i, s] ctx.lastIntent fu))
            (secondOf (adjustedScores [b, c, i, s] ctx.lastIntent fu)) < mkRat 8 100
          ∨ bestOf (adjustedScores [b, c, i, s] ctx.lastIntent fu) < mkRat 55 100) :
    combineAnalyses b c i s ctx fu =
      ⟨"ambiguous",
        round2 (bestOf (adjustedScores [b, c, i, s] ctx.lastIntent fu)),
        "ambiguous_detection",
        groupsTotal (intentGroups (validAnalyses [b, c, i, s])),
        some (ambiguityReasonStr
          (qSub (bestOf (adjustedScores [b, c, i, s] ctx.lastIntent fu))
            (secondOf (adjustedScores [b, c, i, s] ctx.lastIntent fu)))
          (bestOf (adjustedScores [b, c, i, s] ctx.lastIntent fu)))⟩ := by
  have hve : (validAnalyses [b, c, i, s]).isEmpty = false := by
    cases hvv : validAnalyses [b, c, i, s] with
    | nil => exact absurd hvv hv
    | cons x xs => rfl
  have hsne := adjustedScores_ne_nil [b, c, i, s] ctx.lastIntent fu hv
  have hse : (adjustedScores [b, c, i, s] ctx.lastIntent fu).isEmpty = false := by
    cases hss : adjustedScores [b, c, i, s] ctx.lastIntent fu with
    | nil => exact absurd hss hsne
    | cons x xs => rfl
  simp only [combineAnalyses, hve, hse, Bool.false_eq_true, if_false]
  rw [if_pos hd]

/-- C1 witness: a single surviving signal below the 0.55 floor makes the
combiner ambiguous. -/
theorem c1_witness :
    validAnalyses [cwAnalysis, cwZero, cwZero, cwZero] ≠ []
    ∧ combineAnalyses cwAnalysis cwZero cwZero cwZero freshContext false =
        ⟨"ambiguous",
          round2 (bestOf (adjustedScores [cwAnalysis, cwZero, cwZero, cwZero]
            freshContext.lastIntent false)),
          "ambiguous_detection",
          groupsTotal (intentGroups (validAnalyses [cwAnalysis, cwZero, cwZero, cwZero])),
          some (ambiguityReasonStr
            (qSub (bestOf (adjustedScores [cwAnalysis, cwZero, cwZero, cwZero]
                freshContext.lastIntent false))
              (secondOf (adjustedScores [cwAnalysis, cwZero, cwZero, cwZero]
                  freshContext.lastIntent false)))
            (bestOf (adjustedScores [cwAnalysis, cwZero, cwZero, cwZero]
              freshContext.lastIntent false)))⟩ :=
  ⟨by decide,
    c1_ambiguity_rule cwAnalysis cwZero cwZero cwZero freshContext false
      (by decide) (Or.inr (by decide))⟩

/-! ### Claim C2 -/

/-- C2 (counterexample): a text with a decisive class-domain term and no
decisive use-case term for which the end-to-end classification (with a
use-case-leaning user context and is_follow_up = false) is ambiguous, not
class-diagram: the contextual signal lands within 0.08 of the decisive one
and triggers the ambiguity rule. -/
theorem c2_full_classifier_counterexample :
    anyContains (pyLower c2text) classDecisiveTerms = true
    ∧ anyContains (pyLower c2text) usecaseDecisiveTerms = false
    ∧ (analyzeConversation c2ctx c2text false).1.intent = "ambiguous" := by
  decide

/-- C2 (amended): for every text with at least one decisive class-domain
term and no decisive use-case term, the basic/decisive-term signal returns
intent diagrama_clases at fixed confidence 0.92 (hence at least 0.9); the
full classification need not, since other signals can trigger the
ambiguity rule. -/
theorem c2_decisive_class_basic_signal (text : String)
    (hc : anyContains (pyLower text) classDecisiveTerms = true)
    (hu : anyContains (pyLower text) usecaseDecisiveTerms = false) :
    basicIntentDetection text = ⟨"diagrama_clases", mkRat 92 100, "decisive_terms"⟩
    ∧ mkRat 92 100 ≥ mkRat 9 10 := by
  constructor
  · simp [basicIntentDetection, hc, hu]
  · decide

/-- C2 witness: the amended statement at the decisive text herencia. -/
theorem c2_witness :
    anyContains (pyLower "herencia") classDecisiveTerms = true
    ∧ anyContains (pyLower "herencia") usecaseDecisiveTerms = false
    ∧ basicIntentDetection "herencia"
        = ⟨"diagrama_clases", mkRat 92 100, "decisive_terms"⟩ :=
  ⟨by decide, by decide,
    (c2_decisive_class_basic_signal "herencia" (by decide) (by decide)).1⟩

/-! ### Claim C8 -/

theorem update_history_len (ctx : ConvContext) (r : CombineResult) (ind : Analysis) :
    ((updateConversationContext ctx r ind).confidenceHistory).length
      = min (ctx.confidenceHistory.length + 1) 10 := by
  simp only [updateConversationContext]
  split
  · rename_i h
    simp only [pyTakeLast, List.length_drop, List.length_append, List.length_cons,
      List.length_nil] at h ⊢
    omega
  · rename_i h
    simp only [List.length_append, List.length_cons, List.length_nil] at h ⊢
    omega

theorem update_history_suffix (ctx : ConvContext) (r : CombineResult) (ind : Analysis) :
    (updateConversationContext ctx r ind).confidenceHistory
      <:+ ctx.confidenceHistory ++ [r.confidence] := by
  simp only [updateConversationContext]
  split
  · exact List.drop_suffix _ _
  · exact List.suffix_refl _

theorem analyze_history_len (ctx : ConvContext) (text : String) (fu : Bool) :
    (((analyzeConversation ctx text fu).2).confidenceHistory).length
      = min (ctx.confidenceHistory.length + 1) 10 := by
  simp only [analyzeConversation]
  rw [update_history_len]

theorem fold_analyze_len (texts : List String) :
    ∀ ctx : ConvContext, ctx.confidenceHistory.length ≤ 10 →
      (((texts.foldl (fun c t => (analyzeConversation c t false).2) ctx).confidenceHistory).length)
        = min (ctx.confidenceHistory.length + texts.length) 10 := by
  induction texts with
  | nil => intro ctx h; simp; omega
  | cons t ts ih =>
    intro ctx h
    simp only [List.foldl_cons]
    rw [ih ((analyzeConversation ctx t false).2) (by rw [analyze_history_len]; omega)]
    rw [analyze_history_len]
    simp only [List.length_cons]
    omega

/-- C8 (amended): after every context update the confidence history holds at
most 10 entries and is a suffix of the old history plus the new value (only
the oldest entries are dropped); after 15 classification calls through the
AdvancedDiagramClassifier the history length is exactly 10; the
DiagramClassificationService update also keeps the history at 10 or fewer
entries, but trims to the last 5 whenever messages exceed 10. -/
theorem c8_confidence_history_bound :
    (∀ (ctx : ConvContext) (r : CombineResult) (ind : Analysis),
        ((updateConversationContext ctx r ind).confidenceHistory).length ≤ 10
        ∧ (updateConversationContext ctx r ind).confidenceHistory
            <:+ ctx.confidenceHistory ++ [r.confidence])
    ∧ (∀ texts : List String, texts.length = 15 →
        (((texts.foldl (fun c t => (analyzeConversation c t false).2)
              freshContext).confidenceHistory).length) = 10)
    ∧ (∀ (sctx : ServiceContext) (t : String),
        sctx.messages.length = sctx.confidenceHistory.length →
        ((serviceStep sctx t).confidenceHistory).length ≤ 10) := by
  refine ⟨?_, ?_, ?_⟩
  · intro ctx r ind
    refine ⟨?_, update_history_suffix ctx r ind⟩
    rw [update_history_len]
    omega
  · intro texts h
    rw [fold_analyze_len texts freshContext (by simp [freshContext])]
    simp [freshContext, h]
  · intro sctx t h
    simp only [serviceStep]
    split
    · rename_i hm
      simp only [pyTakeLast, List.length_drop, List.length_append, List.length_cons,
        List.length_nil] at hm ⊢
      omega
    · rename_i hm
      simp only [List.length_append, List.length_cons, List.length_nil] at hm ⊢
      omega

/-- C8 (counterexample): through the service's classify_text, 15 calls for
one user leave confidence_history with 9 entries, not 10: the trim keeps
only the last 5 entries whenever the message count exceeds 10. -/
theorem c8_service_fifteen_calls_counterexample :
    ((hola15.foldl serviceStep freshServiceContext).confidenceHistory).length = 9 := by
  decide

/-- C8 witness: the amended statement at concrete inputs. -/
theorem c8_witness :
    ((updateConversationContext freshContext cwResult cwZero).confidenceHistory).length ≤ 10
    ∧ (updateConversationContext freshContext cwResult cwZero).confidenceHistory
        <:+ freshContext.confidenceHistory ++ [cwResult.confidence]
    ∧ (((List.replicate 15 "x").foldl (fun c t => (analyzeConversation c t false).2)
          freshContext).confidenceHistory).length = 10
    ∧ ((serviceStep freshServiceContext "hola").confidenceHistory).length ≤ 10 :=
  ⟨(c8_confidence_history_bound.1 freshContext cwResult cwZero).1,
   (c8_confidence_history_bound.1 freshContext cwResult cwZero).2,
   c8_confidence_history_bound.2.1 (List.replicate 15 "x") (by decide),
   c8_confidence_history_bound.2.2 freshServiceContext "hola" rfl⟩

/-! ### Claim C9 -/

/-- C9 (counterexample): on the Scenario B input the extracted model's
useCases list is empty — the pattern caso de uso\s+ requires whitespace
after uso, and the colon in "Caso de uso:" defeats it — so no use case
derives from realizar pedido. -/
theorem c9_use_case_extraction_counterexample :
    (buildUseCaseJson scenarioBText []).useCases = [] := by decide

/-- C9 (amended): on the Scenario B input the extracted model's actors list
contains exactly the actor Cliente (alias cliente), while the useCases and
relationships lists are empty. -/
theorem c9_use_case_extraction_actual :
    (buildUseCaseJson scenarioBText []).actors
      = [{ name := some "Cliente", aliasName := some "cliente",
           stereotype := some "", business := some false }]
    ∧ (buildUseCaseJson scenarioBText []).useCases = []
    ∧ (buildUseCaseJson scenarioBText []).relationships = [] := by decide

/-! ### Claim C10 -/

/-- C10: the false-positive filter classifies the Scenario C input as other
at confidence 0.95 before any keyword scoring (method
false_positive_filter), and build_json_for_decoder builds no model for the
intent other, so extraction is skipped. -/
theorem c10_false_positive_short_circuit :
    classifyIntent scenarioCText = ⟨"other", mkRat 95 100, "false_positive_filter"⟩
    ∧ buildJsonForDecoder scenarioCText "other" [] = none := by
  exact ⟨by decide, rfl⟩

/-- C7 witness: the three components at concrete inputs. -/
theorem c7_witness :
    (relLine relW = (relW.source.getD "") ++ " " ++ multEndLabel relW.multiplicity 0
      ++ " " ++ pyDictGet relationsType (relW.type.getD "") "--" ++ " "
      ++ multEndLabel relW.multiplicity 3 ++ " " ++ (relW.target.getD "") ++ "\n")
    ∧ relLine { relW with multiplicity := some [some "1", some "x", some "y", none] }
        = relLine { relW with multiplicity := some [some "1", none, none, none] }
    ∧ multEndLabel none 0 = "" :=
  ⟨c7_multiplicity_uses_only_ends.1 relW,
    c7_multiplicity_uses_only_ends.2.1 relW
      (some [some "1", some "x", some "y", none])
      (some [some "1", none, none, none]) (by decide) (by decide),
    c7_multiplicity_uses_only_ends.2.2 none 0 rfl⟩

end SistemaUML
